import Mathlib

/-!
Verification of the CorrahFlow media-proxy core against its specification.

This file gives a shallow embedding, in Lean 4, of the parts of the Python
source that the checked claims are about:

* `src/config.py` — egress routing (`get_proxy_for_url`) and the API-password
  gate (`check_password`);
* `src/utils/mpd_converter.py` — the MPD→HLS converter (`convert_master_playlist`,
  `convert_media_playlist`) including the live-edge (DVR window, hold-back) logic;
* `src/utils/drm_decrypter.py` — the fMP4 CENC decrypter (box parser,
  `_process_moov` family, `_decrypt_mdat`, `_get_key_for_track`);
* `src/services/hls_proxy.py` — the upstream-header pipeline of `_proxy_stream`,
  the per-endpoint authentication prologues, and the segment prefetch logic
  (`_prefetch_next_segments`, `_fetch_and_cache_segment`).

Conventions used throughout:

* Python byte strings are `List Nat` (each entry one byte), Python `str` is
  Lean `String`, Python dicts are insertion-ordered association lists
  (`List (String × String)` etc.) with Python's update-in-place semantics.
* Machine/bignum integers are `Int`/`Nat`; Python float values that arise in
  the converter (always of the form `int / int` or sums thereof) are modelled
  exactly by the fraction type `PyFloat` below, interpreted in `ℚ` via
  `PyFloat.toRat`.
* Fallible Python code (statements that can raise) is modelled in
  `Except String`; a value `.error e` corresponds to an exception with
  message `e` propagating to the enclosing `try`.
* Calls into external libraries (the `random` module, `urllib` URL joining,
  the AES block cipher of pycryptodome) are modelled by explicit parameters
  or by small faithful stand-ins, documented at each site.
-/

/-! ## Generic Python-semantics helpers -/

/-- Python's `pattern in s` for strings: contiguous-substring test
(case-sensitive, over the full string). -/
def pyIn (pat s : String) : Bool := decide (pat.data <:+: s.data)

/-- Python truthiness of an optional string: `None` and `""` are falsy. -/
def pyTruthy : Option String → Bool
  | none => false
  | some s => !(s == "")

/-- Python `str.startswith`. -/
def pyStartsWith (s pre : String) : Bool := decide (pre.data <+: s.data)

/-- First value in an association list under an exact (case-sensitive) key,
like `.get` on a Python dict / the first hit of a multidict. -/
def assocGet (l : List (String × String)) (name : String) : Option String :=
  (l.find? (fun p => p.1 == name)).map Prod.snd

/-- ASCII lower-casing, modelling Python `str.lower` on the ASCII header
names and attribute values that occur in this code base. -/
def pyLower (s : String) : String := String.mk (s.data.map Char.toLower)

/-- Case-insensitive first value in an association list, as aiohttp's
`request.headers.get` (a case-insensitive multidict) behaves. -/
def assocGetCI (l : List (String × String)) (name : String) : Option String :=
  (l.find? (fun p => pyLower p.1 == pyLower name)).map Prod.snd

/-! ## `src/config.py` -/

/-- One parsed `TRANSPORT_ROUTES` entry
(`{URL=…, PROXY=…, DISABLE_SSL=…}`, see `parse_transport_routes`). -/
structure Route where
  url : String
  proxy : Option String
  disable_ssl : Bool
deriving DecidableEq, Repr

/-- `random.choice(pool) if pool else None`.  The randomness of
`random.choice` is modelled by the extra draw index `pick`; for a non-empty
pool the result is the member at position `pick % pool.length`, so every
member is reachable and nothing outside the pool is. -/
def random_choice (pool : List String) (pick : Nat) : Option String :=
  if pool.isEmpty then none else pool.get? (pick % pool.length)

/-- `config.get_proxy_for_url` (src/config.py lines 81–99).
`if not url or not transport_routes:` falls through to the global pool;
otherwise the first route whose `url` pattern is a substring of the URL
decides: a truthy `proxy` value is returned, a falsy one means direct
(`None`).  No match falls through to the global pool. -/
def get_proxy_for_url (url : String) (transport_routes : List Route)
    (global_proxies : List String) (pick : Nat) : Option String :=
  if url == "" || transport_routes.isEmpty then random_choice global_proxies pick
  else
    match transport_routes.find? (fun route => pyIn route.url url) with
    | some route => if pyTruthy route.proxy then route.proxy else none
    | none => random_choice global_proxies pick

/-- `config.get_ssl_setting_for_url` (src/config.py lines 101–113). -/
def get_ssl_setting_for_url (url : String) (transport_routes : List Route) : Bool :=
  if url == "" || transport_routes.isEmpty then false
  else
    match transport_routes.find? (fun route => pyIn route.url url) with
    | some route => route.disable_ssl
    | none => false

/-- `config.check_password` (src/config.py lines 144–158).  `api_password`
is the process-wide `API_PASSWORD` (`None` when the variable is unset; an
empty string is falsy and also disables the check).  `query` and `headers`
carry the request's query parameters and headers. -/
def check_password (api_password : Option String)
    (query headers : List (String × String)) : Bool :=
  if !(pyTruthy api_password) then true
  else
    assocGet query "api_password" == api_password ||
    assocGetCI headers "x-api-password" == api_password

/-! ## Endpoint authentication prologues (`src/services/hls_proxy.py`)

Each definition below embeds exactly the authentication gate at the top of
the named aiohttp handler: it is `true` iff the handler answers this request
with `401 Unauthorized` because of the password check. -/

/-- `HLSProxy.handle_proxy_request` (lines 316–320): `if not
check_password(request): return 401`.  This handler serves the
`/proxy/hls/manifest.m3u8`, `/proxy/mpd/manifest.m3u8` and `/proxy/stream`
entries. -/
def handle_proxy_request_rejects_auth (api_password : Option String)
    (query headers : List (String × String)) : Bool :=
  !(check_password api_password query headers)

/-- `HLSProxy.handle_extractor_request` (lines 645–655). -/
def handle_extractor_request_rejects_auth (api_password : Option String)
    (query headers : List (String × String)) : Bool :=
  !(check_password api_password query headers)

/-- `HLSProxy.handle_key_request` (lines 882–885). -/
def handle_key_request_rejects_auth (api_password : Option String)
    (query headers : List (String × String)) : Bool :=
  !(check_password api_password query headers)

/-- `HLSProxy.handle_decrypt_segment` (lines 1643–1646). -/
def handle_decrypt_segment_rejects_auth (api_password : Option String)
    (query headers : List (String × String)) : Bool :=
  !(check_password api_password query headers)

/-- `HLSProxy.handle_license_request` (lines 780–880): the handler body
starts directly with the ClearKey / proxy logic; it contains no
`check_password` call, so it never answers 401 for authentication reasons. -/
def handle_license_request_rejects_auth (_api_password : Option String)
    (_query _headers : List (String × String)) : Bool :=
  false

/-- `HLSProxy.handle_ts_segment` (lines 995–1028), the `/segment/{name}`
relay: no `check_password` call either. -/
def handle_ts_segment_rejects_auth (_api_password : Option String)
    (_query _headers : List (String × String)) : Bool :=
  false

/-- `HLSProxy.handle_generate_urls` (lines 1795–1809): the JSON body's
`api_password` is accepted first; only when the configured password is
truthy and the body password mismatches are the standard query/header
checks consulted. -/
def handle_generate_urls_rejects_auth (api_password : Option String)
    (query headers : List (String × String)) (body_password : Option String) : Bool :=
  if pyTruthy api_password && !(body_password == api_password) then
    !(check_password api_password query headers)
  else
    false

/-! ## Helper lemmas about `List.find?` as a first-match loop -/

theorem find?_eq_of_first {α : Type} (p : α → Bool) :
    ∀ (l : List α) (i : Nat) (a : α),
      l.get? i = some a → p a = true →
      (∀ j b, j < i → l.get? j = some b → p b = false) →
      l.find? p = some a := by
  intro l
  induction l with
  | nil => intro i a ha; simp at ha
  | cons x t ih =>
      intro i a ha hpa hfirst
      cases i with
      | zero =>
          simp at ha
          subst ha
          simp [List.find?, hpa]
      | succ k =>
          have hx : p x = false := hfirst 0 x (Nat.succ_pos k) (by simp)
          simp only [List.find?, hx]
          exact ih k a (by simpa using ha) hpa
            (fun j b hj hb => hfirst (j + 1) b (Nat.succ_lt_succ hj) (by simpa using hb))

/-! ## Claim C8 -/

/-- C8, counterexample.  The claim says `resolve_proxy` "returns none — a
direct connection — when the URL is empty"; on the code, an empty URL with a
non-empty global pool returns a pool member instead of none. -/
theorem C8_counterexample :
    get_proxy_for_url "" [⟨"x", some "proxyA", false⟩] ["poolP"] 0 = some "poolP" ∧
    some "poolP" ≠ (none : Option String) := by
  constructor
  · rfl
  · intro h; cases h

/-- C8 (amended): `get_proxy_for_url` returns the proxy of the first route
whose pattern is a substring of the URL, none (direct) when that route's
proxy value is absent or empty, and otherwise — including when the URL is
empty or the route table is empty — a member of the global pool when it is
non-empty and none when it is empty. -/
theorem C8_amended :
    (∀ (url : String) (routes : List Route) (pool : List String) (pick : Nat)
        (i : Nat) (r : Route),
        url ≠ "" →
        routes.get? i = some r →
        pyIn r.url url = true →
        (∀ j r', j < i → routes.get? j = some r' → pyIn r'.url url = false) →
        get_proxy_for_url url routes pool pick =
          (if pyTruthy r.proxy then r.proxy else none)) ∧
    (∀ (url : String) (routes : List Route) (pool : List String) (pick : Nat),
        (url = "" ∨ routes.find? (fun route => pyIn route.url url) = none) →
        (pool = [] → get_proxy_for_url url routes pool pick = none) ∧
        (pool ≠ [] → ∃ p ∈ pool, get_proxy_for_url url routes pool pick = some p)) := by
  constructor
  · intro url routes pool pick i r hurl hget hi hfirst
    have hfind := find?_eq_of_first (fun route => pyIn route.url url) routes i r hget hi hfirst
    have hne : routes.isEmpty = false := by
      cases routes with
      | nil => simp at hget
      | cons a t => rfl
    simp [get_proxy_for_url, hurl, hne, hfind]
  · intro url routes pool pick h
    have hpool : ∀ pick', pool ≠ [] → ∃ p ∈ pool, random_choice pool pick' = some p := by
      intro pick' hp
      have hlen : 0 < pool.length := List.length_pos.mpr hp
      have hmod : pick' % pool.length < pool.length := Nat.mod_lt _ hlen
      refine ⟨pool.get ⟨pick' % pool.length, hmod⟩, List.get_mem pool _ hmod, ?_⟩
      simp [random_choice, List.isEmpty_iff, hp, List.get?_eq_get hmod]
    have hbranch : get_proxy_for_url url routes pool pick = random_choice pool pick := by
      rcases h with h | h
      · simp [get_proxy_for_url, h]
      · by_cases hu : url == ""
        · simp [get_proxy_for_url, hu]
        · by_cases hr : routes.isEmpty
          · simp [get_proxy_for_url, hr]
          · simp [get_proxy_for_url, hu, hr, h]
    constructor
    · intro hp
      subst hp
      simp [hbranch, random_choice]
    · intro hp
      rcases hpool pick hp with ⟨p, hpmem, hpe⟩
      exact ⟨p, hpmem, by rw [hbranch, hpe]⟩

/-- C8 witness: the amended theorem applied at concrete inputs. -/
theorem C8_amended_witness :
    get_proxy_for_url "https://a.example/x" [⟨"a.example", some "socks5://p", false⟩] [] 0
      = some "socks5://p" ∧
    ∃ p ∈ ["poolP"], get_proxy_for_url "https://b.example/x"
      [⟨"a.example", some "socks5://p", false⟩] ["poolP"] 3 = some p := by
  constructor
  · have h := C8_amended.1 "https://a.example/x" [⟨"a.example", some "socks5://p", false⟩]
      [] 0 0 ⟨"a.example", some "socks5://p", false⟩ (by decide) rfl (by decide)
      (fun j r' hj hr' => absurd hj (by omega))
    rw [h]
    rfl
  · exact (C8_amended.2 "https://b.example/x" [⟨"a.example", some "socks5://p", false⟩]
      ["poolP"] 3 (Or.inr (by decide))).2 (by decide)

/-! ## Claim C2 -/

/-- C2, counterexample.  With a configured API password and a request
carrying no credentials at all, the license endpoint
(`handle_license_request`) does not return 401: its handler contains no
password check.  The same holds for the `/segment/{name}` relay. -/
theorem C2_counterexample :
    check_password (some "secret") [] [] = false ∧
    handle_license_request_rejects_auth (some "secret") [] [] = false ∧
    handle_ts_segment_rejects_auth (some "secret") [] [] = false := by
  refine ⟨rfl, rfl, rfl⟩

/-- C2 (amended): when a (truthy) API password is configured and a request
matches it neither by `api_password` query parameter, nor by
`x-api-password` header, nor (for the batch endpoint) by JSON-body
password, then the proxy entry, the extractor endpoint, the key relay, the
decrypt endpoint and the batch URL generator all answer 401 — but the
license endpoint and the segment relay never perform the password check and
do not answer 401. -/
theorem C2_amended (api_password : Option String)
    (query headers : List (String × String)) (body_password : Option String)
    (hset : pyTruthy api_password = true)
    (hnomatch : check_password api_password query headers = false)
    (hbody : body_password ≠ api_password) :
    (handle_proxy_request_rejects_auth api_password query headers = true ∧
     handle_extractor_request_rejects_auth api_password query headers = true ∧
     handle_key_request_rejects_auth api_password query headers = true ∧
     handle_decrypt_segment_rejects_auth api_password query headers = true ∧
     handle_generate_urls_rejects_auth api_password query headers body_password = true) ∧
    (handle_license_request_rejects_auth api_password query headers = false ∧
     handle_ts_segment_rejects_auth api_password query headers = false) := by
  have hb : (body_password == api_password) = false := by
    simp [hbody]
  refine ⟨⟨?_, ?_, ?_, ?_, ?_⟩, rfl, rfl⟩ <;>
    simp [handle_proxy_request_rejects_auth, handle_extractor_request_rejects_auth,
      handle_key_request_rejects_auth, handle_decrypt_segment_rejects_auth,
      handle_generate_urls_rejects_auth, hset, hnomatch, hb]

/-- C2 witness: the amended theorem at a concrete request (password
configured as "s", wrong query credential, no header, no body password). -/
theorem C2_amended_witness :
    handle_proxy_request_rejects_auth (some "s") [("api_password", "wrong")] [] = true ∧
    handle_license_request_rejects_auth (some "s") [("api_password", "wrong")] [] = false := by
  have h := C2_amended (some "s") [("api_password", "wrong")] [] none
    (by decide) (by decide) (by decide)
  exact ⟨h.1.1, h.2.1⟩

/-! ## Exact model of the converter's float arithmetic

All float values the MPD converter manipulates are produced from integers by
division, addition and multiplication (`d / timescale`, ISO-8601 components,
running sums).  They are modelled exactly as fractions with a positive
denominator; `PyFloat.toRat` interprets them in `ℚ`.  (CPython uses binary
doubles here, so Python results are these rationals up to rounding; all
comparisons in the claims and counterexamples are taken on the exact
values.) -/

structure PyFloat where
  num : Int
  den : Nat
deriving DecidableEq, Repr

/-- Interpretation in `ℚ`. -/
def PyFloat.toRat (x : PyFloat) : ℚ := (x.num : ℚ) / (x.den : ℚ)

/-- Embed an integer. -/
def PyFloat.ofInt (n : Int) : PyFloat := ⟨n, 1⟩

/-- `a / b` for integers `a`, `b` with `b ≠ 0` (the caller models Python's
`ZeroDivisionError` before calling).  The sign is normalised into the
numerator so the denominator stays positive. -/
def PyFloat.intDiv (a b : Int) : PyFloat :=
  if b < 0 then ⟨-a, (-b).toNat⟩ else ⟨a, b.toNat⟩

/-- Float addition. -/
def PyFloat.add (x y : PyFloat) : PyFloat :=
  ⟨x.num * (y.den : Int) + y.num * (x.den : Int), x.den * y.den⟩

/-- Float division (`x / y`); the callers guarantee `y ≠ 0`. -/
def PyFloat.div (x y : PyFloat) : PyFloat :=
  PyFloat.intDiv (x.num * (y.den : Int)) (y.num * (x.den : Int))

/-- Boolean `x ≤ y` (cross multiplication; denominators are positive). -/
def PyFloat.ble (x y : PyFloat) : Bool := decide (x.num * (y.den : Int) ≤ y.num * (x.den : Int))

/-- Boolean `x < y`. -/
def PyFloat.blt (x y : PyFloat) : Bool := decide (x.num * (y.den : Int) < y.num * (x.den : Int))

/-- `math.ceil` on a float (denominator positive). -/
def PyFloat.ceilPy (x : PyFloat) : Int := -((-x.num).fdiv (x.den : Int))

/-- `int(x)`: truncation toward zero. -/
def PyFloat.truncPy (x : PyFloat) : Int :=
  if x.num < 0 then -((-x.num).fdiv (x.den : Int)) else x.num.fdiv (x.den : Int)

/-- Well-formedness: the denominator is positive (maintained by all
constructions in this file). -/
def PyFloat.WF (x : PyFloat) : Prop := 0 < x.den

instance (x : PyFloat) : Decidable x.WF := by
  unfold PyFloat.WF
  infer_instance

theorem PyFloat.toRat_add (x y : PyFloat) (hx : x.WF) (hy : y.WF) :
    (x.add y).toRat = x.toRat + y.toRat := by
  have hx0 : ((x.den : Int) : ℚ) ≠ 0 := by
    exact_mod_cast Nat.pos_iff_ne_zero.mp hx
  have hy0 : ((y.den : Int) : ℚ) ≠ 0 := by
    exact_mod_cast Nat.pos_iff_ne_zero.mp hy
  have hx1 : ((x.den : ℚ)) ≠ 0 := by
    exact_mod_cast Nat.pos_iff_ne_zero.mp hx
  have hy1 : ((y.den : ℚ)) ≠ 0 := by
    exact_mod_cast Nat.pos_iff_ne_zero.mp hy
  simp only [PyFloat.add, PyFloat.toRat]
  push_cast
  field_simp

theorem PyFloat.add_WF (x y : PyFloat) (hx : x.WF) (hy : y.WF) : (x.add y).WF :=
  Nat.mul_pos hx hy

theorem PyFloat.ble_iff (x y : PyFloat) (hx : x.WF) (hy : y.WF) :
    x.ble y = true ↔ x.toRat ≤ y.toRat := by
  have hx0 : (0 : ℚ) < (x.den : ℚ) := by exact_mod_cast hx
  have hy0 : (0 : ℚ) < (y.den : ℚ) := by exact_mod_cast hy
  simp only [PyFloat.ble, PyFloat.toRat, decide_eq_true_eq]
  rw [div_le_div_iff hx0 hy0]
  constructor
  · intro h; exact_mod_cast h
  · intro h; exact_mod_cast h

theorem PyFloat.blt_iff (x y : PyFloat) (hx : x.WF) (hy : y.WF) :
    x.blt y = true ↔ x.toRat < y.toRat := by
  have hx0 : (0 : ℚ) < (x.den : ℚ) := by exact_mod_cast hx
  have hy0 : (0 : ℚ) < (y.den : ℚ) := by exact_mod_cast hy
  simp only [PyFloat.blt, PyFloat.toRat, decide_eq_true_eq]
  rw [div_lt_div_iff hx0 hy0]
  constructor
  · intro h; exact_mod_cast h
  · intro h; exact_mod_cast h

theorem PyFloat.toRat_ofInt (n : Int) : (PyFloat.ofInt n).toRat = (n : ℚ) := by
  show ((n : ℚ) / ((1 : Nat) : ℚ)) = (n : ℚ)
  norm_num

/-! ## String helpers used by the converter -/

/-- Python `str.endswith`. -/
def pyEndsWith (s suf : String) : Bool := decide (suf.data <:+ s.data)

/-- Value of a run of decimal digit characters. -/
def digitsToNat (cs : List Char) : Nat :=
  cs.foldl (fun a c => a * 10 + (c.toNat - 48)) 0

/-- Left-pad with zeros to the given width. -/
def padZeros (w : Nat) (s : String) : String :=
  if s.length < w then String.mk (List.replicate (w - s.length) '0') ++ s else s

/-- `f-string` rendering of an optional string, as Python renders `None`. -/
def pyStr : Option String → String
  | none => "None"
  | some s => s

/-- ASCII upper-casing (`str.upper` on the ASCII language tags used here). -/
def pyUpper (s : String) : String := String.mk (s.data.map Char.toUpper)

/-- UTF-8 bytes of one character. -/
def utf8Bytes (c : Char) : List Nat :=
  let n := c.toNat
  if n < 0x80 then [n]
  else if n < 0x800 then [0xC0 + n / 0x40, 0x80 + n % 0x40]
  else if n < 0x10000 then
    [0xE0 + n / 0x1000, 0x80 + (n / 0x40) % 0x40, 0x80 + n % 0x40]
  else
    [0xF0 + n / 0x40000, 0x80 + (n / 0x1000) % 0x40, 0x80 + (n / 0x40) % 0x40, 0x80 + n % 0x40]

/-- One hex digit (upper case, as `urllib.parse.quote` emits). -/
def hexDigit (n : Nat) : Char :=
  if n < 10 then Char.ofNat (48 + n) else Char.ofNat (55 + n)

/-- Two-digit hex rendering of a byte. -/
def hexByte (b : Nat) : String :=
  String.mk [hexDigit (b / 16 % 16), hexDigit (b % 16)]

/-- `urllib.parse.quote(s, safe='')`: percent-encode everything except the
always-safe ASCII set. -/
def pyQuote (s : String) : String :=
  String.join (s.data.map fun c =>
    if c.isAlphanum || c == '_' || c == '.' || c == '-' || c == '~' then String.singleton c
    else String.join ((utf8Bytes c).map (fun b => "%" ++ hexByte b)))

/-- `os.path.dirname` (posix flavour), as used on the manifest URL. -/
def pyDirname (s : String) : String :=
  let cs := s.data
  let rev := cs.reverse
  match rev.findIdx? (fun c => c == '/') with
  | none => ""
  | some i =>
      let keep := cs.length - i
      let head := cs.take keep
      if head.all (fun c => c == '/') then String.mk head
      else String.mk (head.reverse.dropWhile (fun c => c == '/')).reverse

/-- Everything up to and including the last `/` of a URL (the resolution
base for a relative reference). -/
def upToLastSlash (s : String) : Option String :=
  let cs := s.data
  match cs.reverse.findIdx? (fun c => c == '/') with
  | none => none
  | some i => some (String.mk (cs.take (cs.length - i)))

/-- Scheme-and-host part of an absolute URL (up to the first `/` after
`://`). -/
def schemeHost (s : String) : String :=
  let cs := s.data
  match findSub cs "://".data 0 with
  | none => s
  | some i =>
      let after := cs.drop (i + 3)
      String.mk (cs.take (i + 3) ++ after.takeWhile (fun c => c != '/'))
where
  findSub : List Char → List Char → Nat → Option Nat
    | [], pat, _ => if pat.isEmpty then some 0 else none
    | c :: rest, pat, i =>
        if pat.isPrefixOf (c :: rest) then some i else findSub rest pat (i + 1)

/-- Modelled from the standard library: `urllib.parse.urljoin` in the cases
the converter produces — an absolute reference wins, a root-relative
reference replaces the path, any other reference is resolved against the
base up to its last slash.  (Dot-segment normalisation and the more exotic
RFC 3986 cases are not modelled; no claim depends on them.) -/
def pyUrljoin (base rel : String) : String :=
  if rel == "" then base
  else if pyIn "://" rel then rel
  else if pyStartsWith rel "/" then schemeHost base ++ rel
  else match upToLastSlash base with
    | some pre => pre ++ rel
    | none => rel

/-- `MPDToHLSConverter._parse_iso8601` (src/utils/mpd_converter.py lines
43–54): the regex `PT(?:(\d+)H)?(?:(\d+)M)?(?:(\d+(\.\d+)?)S)?` matched at
the start of the string; an empty string or a failed match gives `0.0`. -/
def _parse_iso8601 (duration_str : String) : PyFloat :=
  if duration_str == "" then ⟨0, 1⟩
  else
    match duration_str.data with
    | 'P' :: 'T' :: rest =>
        let d1 := rest.takeWhile Char.isDigit
        let r1 := rest.dropWhile Char.isDigit
        let hPair : Nat × List Char :=
          if !d1.isEmpty && r1.head? == some 'H' then (digitsToNat d1, r1.tail) else (0, rest)
        let h := hPair.1
        let restH := hPair.2
        let d2 := restH.takeWhile Char.isDigit
        let r2 := restH.dropWhile Char.isDigit
        let mPair : Nat × List Char :=
          if !d2.isEmpty && r2.head? == some 'M' then (digitsToNat d2, r2.tail) else (0, restH)
        let m := mPair.1
        let restM := mPair.2
        let d3 := restM.takeWhile Char.isDigit
        let r3 := restM.dropWhile Char.isDigit
        let sec : PyFloat :=
          if d3.isEmpty then ⟨0, 1⟩
          else
            match r3 with
            | '.' :: r4 =>
                let d4 := r4.takeWhile Char.isDigit
                let r5 := r4.dropWhile Char.isDigit
                if !d4.isEmpty && r5.head? == some 'S' then
                  ⟨(digitsToNat (d3 ++ d4) : Int), 10 ^ d4.length⟩
                else ⟨0, 1⟩
            | 'S' :: _ => ⟨(digitsToNat d3 : Int), 1⟩
            | _ => ⟨0, 1⟩
        ((PyFloat.ofInt (h * 3600)).add (PyFloat.ofInt (m * 60))).add sec
    | _ => ⟨0, 1⟩

/-! ## DASH template expansion (`MPDToHLSConverter._process_template`) -/

/-- CPython `%`-formatting for the integer conversion specs that occur in
DASH templates (`%d`, `%5d`, `%05d`); other specs fall back to the plain
decimal rendering. -/
def applyPyFormatInt (fmt : String) (n : Int) : String :=
  match fmt.data with
  | '%' :: rest =>
      let zeroFlag := rest.head? == some '0'
      let rest1 := if zeroFlag then rest.tail else rest
      let widthDigits := rest1.takeWhile Char.isDigit
      let rest2 := rest1.dropWhile Char.isDigit
      match rest2 with
      | ['d'] =>
          let width := digitsToNat widthDigits
          let body := toString n.natAbs
          let sign := if n < 0 then "-" else ""
          if zeroFlag then
            if sign.length + body.length < width then
              sign ++ padZeros (width - sign.length) body
            else sign ++ body
          else
            let plain := sign ++ body
            if plain.length < width then
              String.mk (List.replicate (width - plain.length) ' ') ++ plain
            else plain
      | _ => toString n
  | _ => toString n

/-- Strip a literal from the front of a character list. -/
def stripPre : List Char → List Char → Option (List Char)
  | [], cs => some cs
  | _, [] => none
  | p :: ps, c :: cs => if p == c then stripPre ps cs else none

/-- Try to match `<name>(%fmt)?$` at the current position (the opening `$`
already consumed); returns the optional format spec and the rest of the
input after the closing `$`. -/
def tryTagMatch (nameChars : List Char) (cs : List Char) :
    Option (Option (List Char) × List Char) :=
  match stripPre nameChars cs with
  | none => none
  | some rest =>
      match rest with
      | '$' :: rest2 => some (none, rest2)
      | '%' :: rest2 =>
          let inner := rest2.takeWhile (fun c => c != '$')
          let rest3 := rest2.dropWhile (fun c => c != '$')
          if inner.isEmpty then none
          else
            match rest3 with
            | '$' :: rest4 => some (some ('%' :: inner), rest4)
            | _ => none
      | _ => none

/-- One `re.sub` pass replacing every `$name$` / `$name%fmt$` occurrence,
scanning left to right (fuel-driven; the fuel is the input length plus
one, which always suffices since every step consumes at least one
character). -/
def scanSub (nameChars : List Char) (repl : Option (List Char) → List Char) :
    Nat → List Char → List Char
  | 0, cs => cs
  | _ + 1, [] => []
  | fuel + 1, c :: cs =>
      if c == '$' then
        match tryTagMatch nameChars cs with
        | some (fmt, rest) => repl fmt ++ scanSub nameChars repl fuel rest
        | none => c :: scanSub nameChars repl fuel cs
      else c :: scanSub nameChars repl fuel cs

/-- Apply one placeholder-substitution pass to a string. -/
def substPass (name : String) (repl : Option (List Char) → List Char) (s : String) : String :=
  String.mk (scanSub name.data repl (s.data.length + 1) s.data)

/-- `MPDToHLSConverter._process_template` (lines 56–85): sequentially
substitute `$Bandwidth…$`, `$RepresentationID…$`, `$Number…$`, `$Time…$`.
The bandwidth and representation-ID passes replace with the plain string
value (any format spec in the tag is ignored, as in the source); the number
and time passes honour the printf-style format spec. -/
def _process_template (url_template : String) (rep_id : String)
    (number : Option Int := none) (time : Option Int := none)
    (bandwidth : Option Int := none) : String :=
  let u1 := match bandwidth with
    | some bw => substPass "Bandwidth" (fun _ => (toString bw).data) url_template
    | none => url_template
  let u2 := substPass "RepresentationID" (fun _ => rep_id.data) u1
  let u3 := match number with
    | some nv => substPass "Number"
        (fun fmt => match fmt with
          | some f => (applyPyFormatInt (String.mk f) nv).data
          | none => (toString nv).data) u2
    | none => u2
  match time with
  | some tv => substPass "Time"
      (fun fmt => match fmt with
        | some f => (applyPyFormatInt (String.mk f) tv).data
        | none => (toString tv).data) u3
  | none => u3

/-! ## `src/utils/mpd_converter.py` — data model

The XML parsing performed by `ET.fromstring` is external to the repository;
its outcome is modelled as `Except String MPDDoc`: `.error` for a manifest
that is not well-formed XML (the `ET.ParseError` path of the `try`), `.ok`
for the parsed DOM restricted to the elements and attributes this converter
reads.  Attribute values that the code immediately converts with `int(...)`
are modelled as already-parsed integers (`none` for an absent attribute). -/

/-- An `<S>` element of a `SegmentTimeline`. -/
structure SElem where
  t : Option Int
  d : Option Int
  r : Option Int
deriving DecidableEq, Repr

/-- A `<SegmentTemplate>` element.  `extraChildCount` counts child elements
other than the `SegmentTimeline`; Python evaluates an `Element` with zero
children as falsy, which the code relies on (`if not segment_template:`). -/
structure SegmentTemplate where
  timescale : Option Int
  initialization : Option String
  media : Option String
  startNumber : Option Int
  duration : Option Int
  timeline : Option (List SElem)
  extraChildCount : Nat
deriving DecidableEq, Repr

/-- Number of child elements of a `<SegmentTemplate>`. -/
def SegmentTemplate.childCount (st : SegmentTemplate) : Nat :=
  (if st.timeline.isSome then 1 else 0) + st.extraChildCount

/-- A `<Representation>` element. -/
structure MPDRepresentation where
  id : Option String
  bandwidth : Option Int
  mimeType : Option String
  width : Option String
  height : Option String
  frameRate : Option String
  codecs : Option String
  segmentTemplate : Option SegmentTemplate
deriving DecidableEq, Repr

/-- An `<AdaptationSet>` element. -/
structure MPDAdaptationSet where
  mimeType : Option String
  contentType : Option String
  lang : Option String
  codecs : Option String
  representations : List MPDRepresentation
  segmentTemplate : Option SegmentTemplate
deriving DecidableEq, Repr

/-- A `<Period>` element (only its `duration` attribute is read). -/
structure MPDPeriod where
  duration : Option String
deriving DecidableEq, Repr

/-- The parsed MPD document, restricted to what the converter reads.
`baseURLText` is the text of the first direct `BaseURL` child when the
element exists and carries text (`None` text and a missing element behave
identically under the code's truthiness test and are both `none`). -/
structure MPDDoc where
  typ : Option String
  timeShiftBufferDepth : Option String
  baseURLText : Option String
  periods : List MPDPeriod
  adaptationSets : List MPDAdaptationSet
deriving DecidableEq, Repr

/-- One entry of the converter's in-memory segment list
(`{'number': …, 'time': …, 'duration': …}`). -/
structure MediaSeg where
  number : Int
  time : Int
  duration : PyFloat
deriving DecidableEq, Repr

/-! ## Media playlist construction -/

/-- Inner repetition loop of the SegmentTimeline branch: `K` consecutive
segments starting at the given number and time, advancing time by `d`. -/
def repSegs (number time d : Int) (dur : PyFloat) : Nat → List MediaSeg
  | 0 => []
  | k + 1 => ⟨number, time, dur⟩ :: repSegs (number + 1) (time + d) d dur k

/-- SegmentTimeline expansion (lines 300–324): fold over the `<S>` elements
carrying the running time and sequence number.  A missing `d` attribute
raises (`int(None)`), a zero timescale raises at the division. -/
def expandTimeline (timescale : Int) : List SElem → Int → Int → Except String (List MediaSeg)
  | [], _, _ => .ok []
  | s :: rest, currentTime, currentSeq => do
      let d ← match s.d with
        | some d => Except.ok d
        | none => Except.error "TypeError: int() argument cannot be None"
      let r := s.r.getD 0
      let t0 := match s.t with
        | some tv => tv
        | none => currentTime
      if timescale = 0 then Except.error "ZeroDivisionError: division by zero"
      else
        let durationSec := PyFloat.intDiv d timescale
        let count := (r + 1).toNat
        let here := repSegs currentSeq t0 d durationSec count
        let tail ← expandTimeline timescale rest (t0 + d * count) (currentSeq + count)
        Except.ok (here ++ tail)

/-- Fixed-duration fallback branch (lines 325–345). -/
def fixedDurationSegs (st : SegmentTemplate) (timescale start_number : Int)
    (is_live : Bool) (periods : List MPDPeriod) : Except String (List MediaSeg) :=
  let duration := st.duration.getD 0
  if duration > 0 then
    if timescale = 0 then Except.error "ZeroDivisionError: division by zero"
    else
      let seg_duration := PyFloat.intDiv duration timescale
      let num_segments : Int :=
        if !is_live then
          match periods.head? with
          | some p =>
              match p.duration with
              | some dstr =>
                  if dstr == "" then 100
                  else ((_parse_iso8601 dstr).div seg_duration).truncPy
              | none => 100
          | none => 100
        else 100
      Except.ok ((List.range num_segments.toNat).map (fun i =>
        ⟨start_number + i, (start_number + i) * duration, seg_duration⟩))
  else Except.ok []

/-- `sum(s['duration'] for s in segments)`. -/
def total_duration (segs : List MediaSeg) : PyFloat :=
  segs.foldl (fun acc s => acc.add s.duration) ⟨0, 1⟩

/-- The DVR-window keep loop (lines 358–364), processing the segment list
newest-first (the argument is the reversed chronological list): collect
segments until the accumulated duration reaches the window, inclusive. -/
def dvr_keep (window : PyFloat) : List MediaSeg → PyFloat → List MediaSeg
  | [], _ => []
  | s :: rest, acc =>
      let acc' := acc.add s.duration
      if window.ble acc' then [s] else s :: dvr_keep window rest acc'

/-- The DVR trim (lines 354–365): applied only when the total available
duration strictly exceeds the window. -/
def apply_dvr_window (segs : List MediaSeg) (window : PyFloat) : List MediaSeg :=
  if window.blt (total_duration segs) then (dvr_keep window segs.reverse ⟨0, 1⟩).reverse
  else segs

/-- The safety hold-back (lines 367–371): `if len(segments) > 2:
segments = segments[:-2]`. -/
def apply_holdback (segs : List MediaSeg) : List MediaSeg :=
  if 2 < segs.length then segs.take (segs.length - 2) else segs

/-- The DVR window value (lines 350–352): `timeShiftBufferDepth` parsed as
ISO 8601 when the attribute is truthy, otherwise the 180-second default. -/
def dvr_window_of (tsbd : Option String) : PyFloat :=
  match tsbd with
  | some s => if s == "" then ⟨180, 1⟩ else _parse_iso8601 s
  | none => ⟨180, 1⟩

/-- Live-edge section (lines 347–375): DVR trim, hold-back and the
`#EXT-X-MEDIA-SEQUENCE` line; a no-op for VOD or an empty list. -/
def live_edge_section (is_live : Bool) (tsbd : Option String)
    (segments : List MediaSeg) : List MediaSeg × List String :=
  if is_live && !segments.isEmpty then
    let segs1 := apply_dvr_window segments (dvr_window_of tsbd)
    let segs2 := apply_holdback segs1
    (segs2,
      match segs2 with
      | [] => []
      | s :: _ => ["#EXT-X-MEDIA-SEQUENCE:" ++ toString s.number])
  else (segments, [])

/-- Maximal segment duration (`max(s['duration'] for s in segments)`), on a
non-empty list presented as head and tail. -/
def max_duration (s0 : PyFloat) (rest : List MediaSeg) : PyFloat :=
  rest.foldl (fun acc x => if acc.blt x.duration then x.duration else acc) s0

/-- Fixed-point rendering `f'{x:.6f}'` of an exact float value: round
half-even at the sixth decimal. -/
def PyFloat.format6 (x : PyFloat) : String :=
  let n10 : Int := x.num * 1000000
  let d : Int := (x.den : Int)
  let q := n10.fdiv d
  let r := n10 - q * d
  let n := if 2 * r < d then q
    else if d < 2 * r then q + 1
    else if q % 2 = 0 then q else q + 1
  let m := n.natAbs
  (if n < 0 then "-" else "") ++ toString (m / 1000000) ++ "." ++
    padZeros 6 (toString (m % 1000000))

/-- Per-segment rendering loop (lines 389–411): the `#EXTINF` line followed
by the rewritten URI.  A missing `media` template raises at the first
iteration (`re.sub` on `None`); the decrypt branch reads the
`encoded_init_url` local, which is unbound (`NameError`) when no
initialization template was present. -/
def renderSegs (media_template : Option String) (rep_id : String) (bandwidth : Int)
    (base_url proxy_base params decryption_query : String)
    (server_side_decryption : Bool) (encodedInitUrl : Option String) :
    List MediaSeg → Except String (List String)
  | [] => .ok []
  | seg :: rest => do
      let mt ← match media_template with
        | some m => Except.ok m
        | none => Except.error "TypeError: expected string or bytes-like object"
      let seg_name := _process_template mt rep_id (some seg.number) (some seg.time) (some bandwidth)
      let full_seg_url := pyUrljoin base_url seg_name
      let encoded_seg_url := pyQuote full_seg_url
      let extinf := "#EXTINF:" ++ seg.duration.format6 ++ ","
      let urlLine ←
        if server_side_decryption then
          match encodedInitUrl with
          | some enc => Except.ok (proxy_base ++ "/decrypt/segment.mp4?url=" ++
              encoded_seg_url ++ "&init_url=" ++ enc ++ decryption_query ++ params)
          | none => Except.error "NameError: name encoded_init_url is not defined"
        else
          Except.ok (proxy_base ++ "/segment/" ++ seg_name ++ "?base_url=" ++
            encoded_seg_url ++ params)
      let tail ← renderSegs media_template rep_id bandwidth base_url proxy_base params
        decryption_query server_side_decryption encodedInitUrl rest
      Except.ok (extinf :: urlLine :: tail)

/-- `'\n'.join(lines)`. -/
def joinLines : List String → String
  | [] => ""
  | [x] => x
  | x :: y :: rest => x ++ "\n" ++ joinLines (y :: rest)

/-- The segment-list construction (lines 296–345): the SegmentTimeline
branch when a timeline is present, the fixed-duration fallback otherwise. -/
def built_segments (st : SegmentTemplate) (is_live : Bool)
    (periods : List MPDPeriod) : Except String (List MediaSeg) :=
  match st.timeline with
  | some sList => expandTimeline (st.timescale.getD 1) sList 0 (st.startNumber.getD 1)
  | none => fixedDurationSegs st (st.timescale.getD 1) (st.startNumber.getD 1) is_live periods

/-- Representation lookup (lines 224–233): the first AdaptationSet holding a
Representation whose `id` equals `rep_id`, with that Representation. -/
def findRep (doc : MPDDoc) (rep_id : String) :
    Option (MPDAdaptationSet × MPDRepresentation) :=
  doc.adaptationSets.findSome? (fun aset =>
    (aset.representations.find? (fun r => r.id == some rep_id)).map (fun r => (aset, r)))

/-- Python `str.split(sep)` for a one-character separator. -/
def splitOnCharAux (sep : Char) : List Char → List Char → List String
  | [], acc => [String.mk acc.reverse]
  | c :: rest, acc =>
      if c == sep then String.mk acc.reverse :: splitOnCharAux sep rest []
      else splitOnCharAux sep rest (c :: acc)

/-- Python `str.split(sep)` for a one-character separator. -/
def splitOnChar (sep : Char) (s : String) : List String := splitOnCharAux sep s.data []

/-- ClearKey parameter handling (lines 243–255): `kid:key` turns on
server-side decryption. -/
def clearkeyQuery (clearkey_param : Option String) : Bool × String :=
  match clearkey_param with
  | none => (false, "")
  | some ck =>
      if ck == "" then (false, "")
      else
        match splitOnChar ':' ck with
        | [kid, key] => (true, "&key=" ++ key ++ "&key_id=" ++ kid)
        | _ => (false, "")

/-- BaseURL resolution (lines 257–265). -/
def resolveBaseUrl (doc : MPDDoc) (original_url : String) : String :=
  let base_url :=
    match doc.baseURLText with
    | some txt => if txt == "" then pyDirname original_url else pyUrljoin original_url txt
    | none => pyDirname original_url
  if pyEndsWith base_url "/" then base_url else base_url ++ "/"

/-- The `#EXT-X-MAP` section (lines 281–294): the emitted lines (zero or
one) and the value of the `encoded_init_url` local, `none` when the local
stays unbound. -/
def map_section (st : SegmentTemplate) (rep_id : String) (bandwidth : Int)
    (base_url proxy_base params decryption_query : String) (ssd : Bool) :
    List String × Option String :=
  match st.initialization with
  | some it =>
      if it == "" then ([], none)
      else
        let init_url := _process_template it rep_id none none (some bandwidth)
        let full_init_url := pyUrljoin base_url init_url
        let enc := pyQuote full_init_url
        let map_uri :=
          if ssd then
            proxy_base ++ "/decrypt/init.mp4?url=" ++ enc ++ decryption_query ++ params
          else
            proxy_base ++ "/segment/init.mp4?base_url=" ++ enc ++ params
        (["#EXT-X-MAP:URI=\"" ++ map_uri ++ "\""], some enc)
  | none => ([], none)

/-- The `#EXT-X-TARGETDURATION` line (lines 377–384). -/
def target_duration_line (segsF : List MediaSeg) : String :=
  match segsF with
  | [] => "#EXT-X-TARGETDURATION:6"
  | s :: rest => "#EXT-X-TARGETDURATION:" ++ toString (max_duration s.duration rest).ceilPy

/-- Main line-building path of `convert_media_playlist` (lines 238–416),
after the Representation and a truthy SegmentTemplate have been located.
Produces the `lines` list that the source joins with newlines; `.error`
models an exception reaching the enclosing `try`. -/
def media_playlist_lines (doc : MPDDoc) (_aset : MPDAdaptationSet)
    (rep : MPDRepresentation) (st : SegmentTemplate) (rep_id proxy_base original_url
    params : String) (clearkey_param : Option String) : Except String (List String) := do
  let is_live := pyLower (doc.typ.getD "static") == "dynamic"
  let bandwidth : Int := rep.bandwidth.getD 0
  let ck := clearkeyQuery clearkey_param
  let server_side_decryption := ck.1
  let decryption_query := ck.2
  let base_url := resolveBaseUrl doc original_url
  let mapSection := map_section st rep_id bandwidth base_url proxy_base params
    decryption_query server_side_decryption
  let segments ← built_segments st is_live doc.periods
  let les := live_edge_section is_live doc.timeShiftBufferDepth segments
  let segsF := les.1
  let linesPre := ["#EXTM3U", "#EXT-X-VERSION:7"] ++ mapSection.1 ++ les.2
  let linesTD := linesPre.insertIdx 2 (target_duration_line segsF)
  let linesVT := linesTD ++ (if !is_live then ["#EXT-X-PLAYLIST-TYPE:VOD"] else [])
  let segLines ← renderSegs st.media rep_id bandwidth base_url proxy_base params
    decryption_query server_side_decryption mapSection.2 segsF
  Except.ok (linesVT ++ segLines ++ (if !is_live then ["#EXT-X-ENDLIST"] else []))

/-- `MPDToHLSConverter.convert_media_playlist` (lines 205–420) as the full
string-valued function: early returns for a missing Representation or
SegmentTemplate, the exception handler turning any raise into an
`#EXT-X-ERROR` playlist, and the newline join of the main path. -/
def convert_media_playlist (parsed : Except String MPDDoc) (rep_id proxy_base
    original_url params : String) (clearkey_param : Option String) : String :=
  match parsed with
  | .error e => "#EXTM3U\n#EXT-X-ERROR: " ++ e
  | .ok doc =>
      match findRep doc rep_id with
      | none => "#EXTM3U\n#EXT-X-ERROR: Representation not found"
      | some (aset, rep) =>
          match rep.segmentTemplate <|> aset.segmentTemplate with
          | none =>
              "#EXTM3U\n#EXT-X-ERROR: SegmentTemplate required (SegmentList not supported in this mode)"
          | some st =>
              if st.childCount = 0 then
                "#EXTM3U\n#EXT-X-ERROR: SegmentTemplate required (SegmentList not supported in this mode)"
              else
                match media_playlist_lines doc aset rep st rep_id proxy_base original_url
                  params clearkey_param with
                | .ok lines => joinLines lines
                | .error e => "#EXTM3U\n#EXT-X-ERROR: " ++ e

/-! ## Master playlist construction (`convert_master_playlist`, lines 87–203) -/

/-- AdaptationSet classification (lines 107–123): video/audio/subtitle by
`mimeType`/`contentType`, with a fallback inspecting the child
Representations' `mimeType`; unmatched sets are dropped. -/
def classifySets (sets : List MPDAdaptationSet) :
    List MPDAdaptationSet × List MPDAdaptationSet × List MPDAdaptationSet :=
  sets.foldl
    (fun acc aset =>
      let mime := aset.mimeType.getD ""
      let content := aset.contentType.getD ""
      if pyIn "video" mime || pyIn "video" content then
        (acc.1 ++ [aset], acc.2.1, acc.2.2)
      else if pyIn "audio" mime || pyIn "audio" content then
        (acc.1, acc.2.1 ++ [aset], acc.2.2)
      else if pyIn "text" mime || pyIn "subtitles" content ||
          pyIn "application/ttml+xml" mime then
        (acc.1, acc.2.1, acc.2.2 ++ [aset])
      else if (aset.representations.find? (fun r => r.mimeType == some "video/mp4")).isSome then
        (acc.1 ++ [aset], acc.2.1, acc.2.2)
      else if (aset.representations.find? (fun r => r.mimeType == some "audio/mp4")).isSome then
        (acc.1, acc.2.1 ++ [aset], acc.2.2)
      else acc)
    ([], [], [])

/-- The per-Representation media URL emitted by the master playlist. -/
def masterMediaUrl (proxy_base original_url : String) (rep_id : Option String)
    (params : String) : String :=
  proxy_base ++ "/proxy/hls/manifest.m3u8?d=" ++ pyQuote original_url ++
    "&format=hls&rep_id=" ++ pyStr rep_id ++ params

/-- Audio `#EXT-X-MEDIA` lines (lines 125–146); the `enumerate` index
decides `DEFAULT=YES`, AdaptationSets without a Representation are
skipped.  Returns the lines and the `has_audio` flag. -/
def audioLines (proxy_base original_url params : String) :
    List MPDAdaptationSet → Nat → List String × Bool
  | [], _ => ([], false)
  | aset :: rest, i =>
      let tail := audioLines proxy_base original_url params rest (i + 1)
      match aset.representations.head? with
      | none => tail
      | some rep =>
          let lang := aset.lang.getD "und"
          let bw : Int := rep.bandwidth.getD 128000
          let name := "Audio " ++ pyUpper lang ++ " (" ++ toString (bw.fdiv 1000) ++ "k)"
          let isDefault := if i = 0 then "YES" else "NO"
          let line := "#EXT-X-MEDIA:TYPE=AUDIO,GROUP-ID=\"audio\",NAME=\"" ++ name ++
            "\",LANGUAGE=\"" ++ lang ++ "\",DEFAULT=" ++ isDefault ++
            ",AUTOSELECT=YES,URI=\"" ++
            masterMediaUrl proxy_base original_url rep.id params ++ "\""
          (line :: tail.1, true)

/-- Subtitle `#EXT-X-MEDIA` lines (lines 148–163). -/
def subtitleLines (proxy_base original_url params : String) :
    List MPDAdaptationSet → List String × Bool
  | [] => ([], false)
  | aset :: rest =>
      let tail := subtitleLines proxy_base original_url params rest
      match aset.representations.head? with
      | none => tail
      | some rep =>
          let lang := aset.lang.getD "und"
          let name := "Sub " ++ pyUpper lang
          let line := "#EXT-X-MEDIA:TYPE=SUBTITLES,GROUP-ID=\"subs\",NAME=\"" ++ name ++
            "\",LANGUAGE=\"" ++ lang ++ "\",AUTOSELECT=YES,URI=\"" ++
            masterMediaUrl proxy_base original_url rep.id params ++ "\""
          (line :: tail.1, true)

/-- Python `a or b` on optional strings (first truthy value). -/
def pyOrOpt (a b : Option String) : Option String :=
  if pyTruthy a then a else b

/-- Video `#EXT-X-STREAM-INF` + URI line pairs (lines 165–197). -/
def videoLines (proxy_base original_url params : String) (has_audio has_subs : Bool)
    (sets : List MPDAdaptationSet) : List String :=
  sets.flatMap (fun aset =>
    aset.representations.flatMap (fun rep =>
      let bw : Int := rep.bandwidth.getD 0
      let codecs := pyOrOpt rep.codecs aset.codecs
      let infParts : List String :=
        ["BANDWIDTH=" ++ toString bw] ++
        (if pyTruthy rep.width && pyTruthy rep.height then
          ["RESOLUTION=" ++ pyStr rep.width ++ "x" ++ pyStr rep.height] else []) ++
        (if pyTruthy rep.frameRate then ["FRAME-RATE=" ++ pyStr rep.frameRate] else []) ++
        (if pyTruthy codecs then ["CODECS=\"" ++ pyStr codecs ++ "\""] else []) ++
        (if has_audio then ["AUDIO=\"audio\""] else []) ++
        (if has_subs then ["SUBTITLES=\"subs\""] else [])
      ["#EXT-X-STREAM-INF:" ++ String.intercalate "," infParts,
       masterMediaUrl proxy_base original_url rep.id params]))

/-- `MPDToHLSConverter.convert_master_playlist` (lines 87–203). -/
def convert_master_playlist (parsed : Except String MPDDoc)
    (proxy_base original_url params : String) : String :=
  match parsed with
  | .error e => "#EXTM3U\n#EXT-X-ERROR: " ++ e
  | .ok doc =>
      let cls := classifySets doc.adaptationSets
      let audio := audioLines proxy_base original_url params cls.2.1 0
      let subs := subtitleLines proxy_base original_url params cls.2.2
      let video := videoLines proxy_base original_url params audio.2 subs.2 cls.1
      joinLines (["#EXTM3U", "#EXT-X-VERSION:3"] ++ audio.1 ++ subs.1 ++ video)

/-! ## Helper functions and lemmas for playlist-line reasoning -/

/-- Number of lines starting with the given tag. -/
def countTagged (lines : List String) (tag : String) : Nat :=
  (lines.filter (fun l => pyStartsWith l tag)).length

/-- Unwrap a line-list result (empty list on error). -/
def linesOf : Except String (List String) → List String
  | .ok l => l
  | .error _ => []

/-- Unwrap a segment-list result (empty list on error). -/
def segsOf : Except String (List MediaSeg) → List MediaSeg
  | .ok l => l
  | .error _ => []

theorem countTagged_append (a b : List String) (tag : String) :
    countTagged (a ++ b) tag = countTagged a tag + countTagged b tag := by
  simp [countTagged, List.filter_append]

theorem countTagged_cons (l : List String) (x tag : String) :
    countTagged (x :: l) tag =
      (if pyStartsWith x tag = true then 1 else 0) + countTagged l tag := by
  by_cases h : pyStartsWith x tag = true
  · simp [countTagged, List.filter_cons, h, Nat.add_comm]
  · simp [countTagged, List.filter_cons, h]

theorem pyStartsWith_append_self (pre suf : String) :
    pyStartsWith (pre ++ suf) pre = true := by
  simp [pyStartsWith, String.data_append]

theorem pyStartsWith_of_isPrefix (s tag : String) (h : tag.data <+: s.data) :
    pyStartsWith s tag = true := by
  simp [pyStartsWith, h]

theorem pyStartsWith_append_of_false (pre suf tag : String)
    (h : pyStartsWith pre tag = false) (hlen : tag.data.length ≤ pre.data.length) :
    pyStartsWith (pre ++ suf) tag = false := by
  simp only [pyStartsWith, String.data_append, decide_eq_false_iff_not] at h ⊢
  intro hcon
  apply h
  have h1 : tag.data = (pre.data ++ suf.data).take tag.data.length :=
    List.prefix_iff_eq_take.mp hcon
  rw [List.take_append_of_le_length hlen] at h1
  rw [h1]
  exact List.take_prefix _ _

theorem pyStartsWith_mono_false (s t1 t2 : String) (h12 : t1.data <+: t2.data)
    (h : pyStartsWith s t1 = false) : pyStartsWith s t2 = false := by
  simp only [pyStartsWith, decide_eq_false_iff_not] at h ⊢
  intro hcon
  exact h (h12.trans hcon)

theorem pyStartsWith_hash_head (s : String) :
    pyStartsWith s "#" = true ↔ s.data.head? = some '#' := by
  cases hs : s.data with
  | nil => simp [pyStartsWith, hs]
  | cons c t =>
      simp only [pyStartsWith, hs, List.head?]
      constructor
      · intro h
        have := of_decide_eq_true h
        rcases this with ⟨r, hr⟩
        have hc : '#' = c := by
          have := congrArg List.head? hr
          simpa using this
        simp [hc.symm]
      · intro h
        have : c = '#' := by simpa using h
        subst this
        exact decide_eq_true (⟨t, by simp⟩)

theorem pyStartsWith_hash_append (a b : String)
    (ha : pyStartsWith a "#" = false) (hb : pyStartsWith b "#" = false) :
    pyStartsWith (a ++ b) "#" = false := by
  rw [Bool.eq_false_iff]
  intro hcon
  rw [pyStartsWith_hash_head] at hcon
  rw [String.data_append] at hcon
  cases haa : a.data with
  | nil =>
      rw [haa] at hcon
      simp at hcon
      exact absurd ((pyStartsWith_hash_head b).mpr hcon) (by simp [hb])
  | cons c t =>
      rw [haa] at hcon
      simp at hcon
      have : pyStartsWith a "#" = true := by
        rw [pyStartsWith_hash_head, haa]
        simp [hcon]
      simp [this] at ha

theorem pyStartsWith_hash_append_left (a b : String)
    (ha : pyStartsWith a "#" = false) (hne : a.data ≠ []) :
    pyStartsWith (a ++ b) "#" = false := by
  rw [Bool.eq_false_iff]
  intro hcon
  rw [pyStartsWith_hash_head] at hcon
  rw [String.data_append] at hcon
  cases haa : a.data with
  | nil => exact hne haa
  | cons c t =>
      rw [haa] at hcon
      simp at hcon
      have : pyStartsWith a "#" = true := by
        rw [pyStartsWith_hash_head, haa]
        simp [hcon]
      simp [this] at ha

theorem joinLines_startsWith (x : String) (l : List String) :
    pyStartsWith (joinLines (x :: l)) x = true := by
  cases l with
  | nil =>
      simp [joinLines, pyStartsWith]
  | cons y rest =>
      show pyStartsWith (x ++ "\n" ++ joinLines (y :: rest)) x = true
      have : x ++ "\n" ++ joinLines (y :: rest) = x ++ ("\n" ++ joinLines (y :: rest)) := by
        simp [String.append_assoc]
      rw [this]
      exact pyStartsWith_append_self _ _

theorem insertIdx_two (x a b : String) (l : List String) :
    (a :: b :: l).insertIdx 2 x = a :: b :: x :: l := by
  simp [List.insertIdx]

/-! ## Claim C5 -/

/-- Total duration of a segment list, interpreted in `ℚ`. -/
def sumDurQ (segs : List MediaSeg) : ℚ := (segs.map (fun s => s.duration.toRat)).sum

theorem total_duration_foldl (segs : List MediaSeg) :
    ∀ (acc : PyFloat), acc.WF → (∀ s ∈ segs, s.duration.WF) →
      (segs.foldl (fun a s => a.add s.duration) acc).WF ∧
      (segs.foldl (fun a s => a.add s.duration) acc).toRat = acc.toRat + sumDurQ segs := by
  induction segs with
  | nil => intro acc hacc _; simpa [sumDurQ] using hacc
  | cons s rest ih =>
      intro acc hacc hwf
      have hs : s.duration.WF := hwf s (by simp)
      have hrest : ∀ x ∈ rest, x.duration.WF := fun x hx => hwf x (by simp [hx])
      have hacc' : (acc.add s.duration).WF := PyFloat.add_WF _ _ hacc hs
      have := ih (acc.add s.duration) hacc' hrest
      refine ⟨this.1, ?_⟩
      rw [List.foldl_cons, this.2, PyFloat.toRat_add _ _ hacc hs]
      simp [sumDurQ]
      ring

theorem total_duration_WF (segs : List MediaSeg) (h : ∀ s ∈ segs, s.duration.WF) :
    (total_duration segs).WF :=
  (total_duration_foldl segs ⟨0, 1⟩ (by norm_num [PyFloat.WF]) h).1

theorem total_duration_toRat (segs : List MediaSeg) (h : ∀ s ∈ segs, s.duration.WF) :
    (total_duration segs).toRat = sumDurQ segs := by
  have := (total_duration_foldl segs ⟨0, 1⟩ (by norm_num [PyFloat.WF]) h).2
  rw [total_duration, this]
  norm_num [PyFloat.toRat]

theorem dvr_keep_subset (window : PyFloat) :
    ∀ (l : List MediaSeg) (acc : PyFloat), ∀ s ∈ dvr_keep window l acc, s ∈ l := by
  intro l
  induction l with
  | nil => intro acc s hs; simp [dvr_keep] at hs
  | cons x rest ih =>
      intro acc s hs
      rw [dvr_keep] at hs
      by_cases hb : window.ble (acc.add x.duration) = true
      · simp [hb] at hs
        simp [hs]
      · simp [hb] at hs
        rcases hs with hs | hs
        · simp [hs]
        · exact List.mem_cons_of_mem x (ih _ s hs)

theorem dvr_keep_bounds (window maxd : PyFloat) (hW : window.WF) :
    ∀ (l : List MediaSeg) (acc : PyFloat), acc.WF →
      (∀ s ∈ l, s.duration.WF) →
      (∀ s ∈ l, s.duration.toRat ≤ maxd.toRat) →
      acc.toRat < window.toRat →
      window.toRat < acc.toRat + sumDurQ l →
      window.toRat ≤ acc.toRat + sumDurQ (dvr_keep window l acc) ∧
      acc.toRat + sumDurQ (dvr_keep window l acc) < window.toRat + maxd.toRat := by
  intro l
  induction l with
  | nil =>
      intro acc _ _ _ hlt hgt
      exfalso
      simp [sumDurQ] at hgt
      linarith
  | cons s rest ih =>
      intro acc hacc hwf hmax hlt hgt
      have hs : s.duration.WF := hwf s (by simp)
      have hacc' : (acc.add s.duration).WF := PyFloat.add_WF _ _ hacc hs
      have haccR : (acc.add s.duration).toRat = acc.toRat + s.duration.toRat :=
        PyFloat.toRat_add _ _ hacc hs
      rw [dvr_keep]
      by_cases hb : window.ble (acc.add s.duration) = true
      · have hge : window.toRat ≤ (acc.add s.duration).toRat :=
          (PyFloat.ble_iff _ _ hW hacc').mp hb
        have hdm : s.duration.toRat ≤ maxd.toRat := hmax s (by simp)
        simp only [hb, if_true]
        constructor
        · simpa [sumDurQ, haccR] using hge
        · simp only [sumDurQ, List.map, List.sum_cons, List.sum_nil]
          linarith
      · have hltQ : (acc.add s.duration).toRat < window.toRat := by
          have h2 : ¬ window.toRat ≤ (acc.add s.duration).toRat := fun hcon =>
            hb ((PyFloat.ble_iff _ _ hW hacc').mpr hcon)
          exact lt_of_not_le h2
        simp only [hb, if_false, Bool.false_eq_true]
        have hgt' : window.toRat < (acc.add s.duration).toRat + sumDurQ rest := by
          rw [haccR]
          simp [sumDurQ] at hgt ⊢
          linarith
        have := ih (acc.add s.duration) hacc'
          (fun x hx => hwf x (by simp [hx]))
          (fun x hx => hmax x (by simp [hx])) hltQ hgt'
        constructor
        · have := this.1
          rw [haccR] at this
          simp [sumDurQ] at this ⊢
          linarith
        · have := this.2
          rw [haccR] at this
          simp [sumDurQ] at this ⊢
          linarith

/-- C5, counterexample.  A live MPD with ten 7-second segments (timeline
`<S t="0" d="7" r="9"/>`, timescale 1) and `timeShiftBufferDepth=PT60S`
satisfies the claim's premises (total 70 s > W = 60 s, max segment 7 s <
W), yet the segments retained by the DVR-window trim total 63 s, which is
outside the claimed interval `(W − max, W] = (53, 60]`. -/
theorem C5_counterexample :
    total_duration (segsOf (expandTimeline 1 [⟨some 0, some 7, some 9⟩] 0 1)) = ⟨70, 1⟩ ∧
    dvr_window_of (some "PT60S") = ⟨60, 1⟩ ∧
    total_duration (apply_dvr_window
      (segsOf (expandTimeline 1 [⟨some 0, some 7, some 9⟩] 0 1))
      (dvr_window_of (some "PT60S"))) = ⟨63, 1⟩ ∧
    PyFloat.toRat ⟨63, 1⟩ = 63 ∧ PyFloat.toRat ⟨60, 1⟩ = 60 ∧ ¬((63 : ℚ) ≤ 60) := by
  refine ⟨by decide, by decide, by decide, ?_, ?_, by norm_num⟩
  · norm_num [PyFloat.toRat]
  · norm_num [PyFloat.toRat]

/-- C5 (amended): for a segment list whose total duration exceeds the DVR
window `W` and whose segment durations are bounded by `maxd < W`, the
segments retained by the DVR-window trim have total duration in the
half-open interval `[W, W + maxd)` — at least the window, and overshooting
it by strictly less than one maximal segment (the loop stops at the first
accumulated total ≥ W; the claim's interval `(W − maxd, W]` is wrong on
the upper side). -/
theorem C5_amended (segs : List MediaSeg) (window maxd : PyFloat)
    (hwf : ∀ s ∈ segs, s.duration.WF)
    (hW : window.WF) (hmd : maxd.WF)
    (hmax : ∀ s ∈ segs, s.duration.ble maxd = true)
    (hmdnn : PyFloat.ble ⟨0, 1⟩ maxd = true)
    (hmaxW : maxd.blt window = true)
    (hex : window.blt (total_duration segs) = true) :
    window.toRat ≤ (total_duration (apply_dvr_window segs window)).toRat ∧
    (total_duration (apply_dvr_window segs window)).toRat < window.toRat + maxd.toRat := by
  have honeWF : (⟨0, 1⟩ : PyFloat).WF := by norm_num [PyFloat.WF]
  have htotWF : (total_duration segs).WF := total_duration_WF segs hwf
  have hexQ : window.toRat < (total_duration segs).toRat :=
    (PyFloat.blt_iff _ _ hW htotWF).mp hex
  have hmaxWQ : maxd.toRat < window.toRat := (PyFloat.blt_iff _ _ hmd hW).mp hmaxW
  have hmdnnQ : (0 : ℚ) ≤ maxd.toRat := by
    have := (PyFloat.ble_iff _ _ honeWF hmd).mp hmdnn
    simpa [PyFloat.toRat] using this
  have hWpos : (0 : ℚ) < window.toRat := lt_of_le_of_lt hmdnnQ hmaxWQ
  have hmaxQ : ∀ s ∈ segs, s.duration.toRat ≤ maxd.toRat := fun s hs =>
    (PyFloat.ble_iff _ _ (hwf s hs) hmd).mp (hmax s hs)
  rw [apply_dvr_window, if_pos hex]
  have hrevwf : ∀ s ∈ segs.reverse, s.duration.WF := fun s hs =>
    hwf s (List.mem_reverse.mp hs)
  have hrevmax : ∀ s ∈ segs.reverse, s.duration.toRat ≤ maxd.toRat := fun s hs =>
    hmaxQ s (List.mem_reverse.mp hs)
  have hzero : PyFloat.toRat ⟨0, 1⟩ = 0 := by norm_num [PyFloat.toRat]
  have hsumrev : sumDurQ segs.reverse = sumDurQ segs := by
    simp [sumDurQ, List.map_reverse, List.sum_reverse]
  have htotQ : (total_duration segs).toRat = sumDurQ segs := total_duration_toRat segs hwf
  have hmain := dvr_keep_bounds window maxd hW segs.reverse ⟨0, 1⟩ honeWF hrevwf hrevmax
    (by rw [hzero]; exact hWpos)
    (by rw [hzero, hsumrev, ← htotQ]; simpa using hexQ)
  have hkwf : ∀ s ∈ (dvr_keep window segs.reverse ⟨0, 1⟩).reverse, s.duration.WF := by
    intro s hs
    exact hwf s (List.mem_reverse.mp (dvr_keep_subset window segs.reverse ⟨0, 1⟩ s
      (List.mem_reverse.mp hs)))
  have hkQ : (total_duration ((dvr_keep window segs.reverse ⟨0, 1⟩).reverse)).toRat =
      sumDurQ (dvr_keep window segs.reverse ⟨0, 1⟩) := by
    rw [total_duration_toRat _ hkwf]
    simp [sumDurQ, List.map_reverse, List.sum_reverse]
  rw [hkQ]
  rw [hzero] at hmain
  constructor
  · linarith [hmain.1]
  · linarith [hmain.2]

/-- C5 witness: the amended theorem at the counterexample's concrete input
(ten 7-second segments, 60-second window). -/
theorem C5_amended_witness :
    (60 : ℚ) / 1 ≤ (total_duration (apply_dvr_window
      (List.replicate 10 (⟨1, 0, ⟨7, 1⟩⟩ : MediaSeg)) ⟨60, 1⟩)).toRat ∧
    (total_duration (apply_dvr_window
      (List.replicate 10 (⟨1, 0, ⟨7, 1⟩⟩ : MediaSeg)) ⟨60, 1⟩)).toRat <
      (60 : ℚ) / 1 + (7 : ℚ) / 1 := by
  have h := C5_amended (List.replicate 10 (⟨1, 0, ⟨7, 1⟩⟩ : MediaSeg)) ⟨60, 1⟩ ⟨7, 1⟩
    (by decide) (by decide) (by decide) (by decide) (by decide) (by decide) (by decide)
  constructor
  · have := h.1
    simpa [PyFloat.toRat] using this
  · have := h.2
    simpa [PyFloat.toRat] using this

/-! ## Line-shape lemmas for the generated playlists -/

theorem pyStartsWith_append_of_take_ne (pre suf tag : String)
    (hlen : pre.data.length ≤ tag.data.length)
    (h : tag.data.take pre.data.length ≠ pre.data) :
    pyStartsWith (pre ++ suf) tag = false := by
  simp only [pyStartsWith, String.data_append, decide_eq_false_iff_not]
  intro hcon
  apply h
  have h1 : tag.data = (pre.data ++ suf.data).take tag.data.length :=
    List.prefix_iff_eq_take.mp hcon
  calc tag.data.take pre.data.length
      = ((pre.data ++ suf.data).take tag.data.length).take pre.data.length := by rw [← h1]
    _ = (pre.data ++ suf.data).take (min pre.data.length tag.data.length) := by
        rw [List.take_take]
    _ = (pre.data ++ suf.data).take pre.data.length := by rw [min_eq_left hlen]
    _ = pre.data := List.take_left pre.data suf.data

theorem pyStartsWith_hash_append_pair (a b : String)
    (h : pyStartsWith a "#" = false ∧ a.data ≠ []) :
    pyStartsWith (a ++ b) "#" = false ∧ (a ++ b).data ≠ [] := by
  refine ⟨pyStartsWith_hash_append_left a b h.1 h.2, ?_⟩
  rw [String.data_append]
  intro hcon
  exact h.2 (List.append_eq_nil.mp hcon).1

theorem not_hash_not_extinf (s : String) (h : pyStartsWith s "#" = false) :
    pyStartsWith s "#EXTINF:" = false :=
  pyStartsWith_mono_false s "#" "#EXTINF:" (by decide) h

theorem not_hash_not_pdt (s : String) (h : pyStartsWith s "#" = false) :
    pyStartsWith s "#EXT-X-PROGRAM-DATE-TIME" = false :=
  pyStartsWith_mono_false s "#" "#EXT-X-PROGRAM-DATE-TIME" (by decide) h

theorem extinf_line_tags (s : String) :
    pyStartsWith ("#EXTINF:" ++ s) "#EXTINF:" = true ∧
    pyStartsWith ("#EXTINF:" ++ s) "#EXT-X-PROGRAM-DATE-TIME" = false := by
  constructor
  · exact pyStartsWith_append_self _ _
  · exact pyStartsWith_append_of_take_ne "#EXTINF:" s "#EXT-X-PROGRAM-DATE-TIME"
      (by decide) (by decide)

theorem td_line_tags (s : String) :
    pyStartsWith ("#EXT-X-TARGETDURATION:" ++ s) "#EXTINF:" = false ∧
    pyStartsWith ("#EXT-X-TARGETDURATION:" ++ s) "#EXT-X-PROGRAM-DATE-TIME" = false := by
  constructor
  · exact pyStartsWith_append_of_false "#EXT-X-TARGETDURATION:" s "#EXTINF:"
      (by decide) (by decide)
  · exact pyStartsWith_append_of_take_ne "#EXT-X-TARGETDURATION:" s
      "#EXT-X-PROGRAM-DATE-TIME" (by decide) (by decide)

theorem map_line_tags (s : String) :
    pyStartsWith ("#EXT-X-MAP:URI=\"" ++ s) "#EXTINF:" = false ∧
    pyStartsWith ("#EXT-X-MAP:URI=\"" ++ s) "#EXT-X-PROGRAM-DATE-TIME" = false := by
  constructor
  · exact pyStartsWith_append_of_false "#EXT-X-MAP:URI=\"" s "#EXTINF:"
      (by decide) (by decide)
  · exact pyStartsWith_append_of_take_ne "#EXT-X-MAP:URI=\"" s
      "#EXT-X-PROGRAM-DATE-TIME" (by decide) (by decide)

theorem seq_line_tags (s : String) :
    pyStartsWith ("#EXT-X-MEDIA-SEQUENCE:" ++ s) "#EXTINF:" = false ∧
    pyStartsWith ("#EXT-X-MEDIA-SEQUENCE:" ++ s) "#EXT-X-PROGRAM-DATE-TIME" = false := by
  constructor
  · exact pyStartsWith_append_of_false "#EXT-X-MEDIA-SEQUENCE:" s "#EXTINF:"
      (by decide) (by decide)
  · exact pyStartsWith_append_of_take_ne "#EXT-X-MEDIA-SEQUENCE:" s
      "#EXT-X-PROGRAM-DATE-TIME" (by decide) (by decide)

/-- Both generated URL-line shapes never look like a tag line, as long as
the proxy base does not itself start with `#`. -/
theorem url_line_not_hash (pb lit rest : String)
    (hpb : pyStartsWith pb "#" = false) (hlit : pyStartsWith lit "#" = false)
    (hne : lit.data ≠ []) :
    pyStartsWith (pb ++ lit ++ rest) "#" = false := by
  have h0 : pyStartsWith (pb ++ lit) "#" = false ∧ (pb ++ lit).data ≠ [] := by
    refine ⟨pyStartsWith_hash_append pb lit hpb hlit, ?_⟩
    rw [String.data_append]
    intro hcon
    exact hne (List.append_eq_nil.mp hcon).2
  exact (pyStartsWith_hash_append_pair (pb ++ lit) rest h0).1

/-- Counting lemma for the per-segment rendering: a successful render
produces exactly one `#EXTINF` line per segment and no
`#EXT-X-PROGRAM-DATE-TIME` line at all. -/
theorem renderSegs_counts (mt : Option String) (rep_id : String) (bw : Int)
    (bu pb params dq : String) (ssd : Bool) (enc : Option String)
    (hpb : pyStartsWith pb "#" = false) :
    ∀ (segs : List MediaSeg) (L : List String),
      renderSegs mt rep_id bw bu pb params dq ssd enc segs = .ok L →
      countTagged L "#EXTINF:" = segs.length ∧
      countTagged L "#EXT-X-PROGRAM-DATE-TIME" = 0 := by
  have hfinish : ∀ (eline u : String) (tail : List String),
      pyStartsWith eline "#EXTINF:" = true →
      pyStartsWith eline "#EXT-X-PROGRAM-DATE-TIME" = false →
      pyStartsWith u "#" = false →
      ∀ n, countTagged tail "#EXTINF:" = n →
      countTagged tail "#EXT-X-PROGRAM-DATE-TIME" = 0 →
      countTagged (eline :: u :: tail) "#EXTINF:" = n + 1 ∧
      countTagged (eline :: u :: tail) "#EXT-X-PROGRAM-DATE-TIME" = 0 := by
    intro eline u tail he1 he2 hu n hc hp
    rw [countTagged_cons, countTagged_cons, countTagged_cons, countTagged_cons]
    rw [he1, he2, not_hash_not_extinf u hu, not_hash_not_pdt u hu, hc, hp]
    simp
    omega
  intro segs
  induction segs with
  | nil =>
      intro L h
      simp only [renderSegs] at h
      cases h
      simp [countTagged]
  | cons seg rest ih =>
      intro L h
      simp only [renderSegs] at h
      cases hmt : mt with
      | none =>
          rw [hmt] at h
          simp only [Bind.bind, Except.bind] at h
          exact Except.noConfusion h
      | some m =>
          rw [hmt] at h
          rw [hmt] at ih
          simp only [Bind.bind, Except.bind] at h
          have hext1 : pyStartsWith ("#EXTINF:" ++ seg.duration.format6 ++ ",") "#EXTINF:"
              = true := by
            rw [String.append_assoc]
            exact (extinf_line_tags _).1
          have hext2 : pyStartsWith ("#EXTINF:" ++ seg.duration.format6 ++ ",")
              "#EXT-X-PROGRAM-DATE-TIME" = false := by
            rw [String.append_assoc]
            exact (extinf_line_tags _).2
          cases hssd : ssd with
          | true =>
              rw [hssd] at h
              cases henc : enc with
              | none =>
                  rw [henc] at h
                  simp at h
              | some e =>
                  rw [henc] at h
                  rw [if_pos rfl] at h
                  cases htail : renderSegs (some m) rep_id bw bu pb params dq true (some e)
                      rest with
                  | error err =>
                      rw [htail] at h
                      exact Except.noConfusion h
                  | ok tail =>
                      rw [htail] at h
                      have hL : L = ("#EXTINF:" ++ seg.duration.format6 ++ ",") ::
                          (pb ++ "/decrypt/segment.mp4?url=" ++
                            pyQuote (pyUrljoin bu (_process_template m rep_id
                              (some seg.number) (some seg.time) (some bw))) ++
                            "&init_url=" ++ e ++ dq ++ params) :: tail :=
                        (Except.ok.inj h).symm
                      have hlitne : ("/decrypt/segment.mp4?url=" : String).data ≠ [] := by
                        decide
                      have c1 : pyStartsWith (pb ++ "/decrypt/segment.mp4?url=") "#" = false ∧
                          (pb ++ "/decrypt/segment.mp4?url=").data ≠ [] := by
                        refine ⟨pyStartsWith_hash_append _ _ hpb (by decide), ?_⟩
                        rw [String.data_append]
                        intro hcon
                        exact hlitne (List.append_eq_nil.mp hcon).2
                      have c2 := pyStartsWith_hash_append_pair _
                        (pyQuote (pyUrljoin bu (_process_template m rep_id
                          (some seg.number) (some seg.time) (some bw)))) c1
                      have c3 := pyStartsWith_hash_append_pair _ "&init_url=" c2
                      have c4 := pyStartsWith_hash_append_pair _ e c3
                      have c5 := pyStartsWith_hash_append_pair _ dq c4
                      have c6 := pyStartsWith_hash_append_pair _ params c5
                      rcases ih tail (by rw [hssd, henc]; exact htail) with ⟨ihc, ihp⟩
                      rw [hL]
                      have := hfinish _ _ tail hext1 hext2 c6.1 rest.length ihc ihp
                      simpa [List.length_cons] using this
          | false =>
              rw [hssd] at h
              rw [if_neg (by simp)] at h
              cases htail : renderSegs (some m) rep_id bw bu pb params dq false enc rest with
              | error err =>
                  rw [htail] at h
                  exact Except.noConfusion h
              | ok tail =>
                  rw [htail] at h
                  have hL : L = ("#EXTINF:" ++ seg.duration.format6 ++ ",") ::
                      (pb ++ "/segment/" ++ (_process_template m rep_id
                        (some seg.number) (some seg.time) (some bw)) ++ "?base_url=" ++
                        pyQuote (pyUrljoin bu (_process_template m rep_id
                          (some seg.number) (some seg.time) (some bw))) ++ params) :: tail :=
                    (Except.ok.inj h).symm
                  have hlitne : ("/segment/" : String).data ≠ [] := by decide
                  have c1 : pyStartsWith (pb ++ "/segment/") "#" = false ∧
                      (pb ++ "/segment/").data ≠ [] := by
                    refine ⟨pyStartsWith_hash_append _ _ hpb (by decide), ?_⟩
                    rw [String.data_append]
                    intro hcon
                    exact hlitne (List.append_eq_nil.mp hcon).2
                  have c2 := pyStartsWith_hash_append_pair _
                    (_process_template m rep_id (some seg.number) (some seg.time) (some bw)) c1
                  have c3 := pyStartsWith_hash_append_pair _ "?base_url=" c2
                  have c4 := pyStartsWith_hash_append_pair _
                    (pyQuote (pyUrljoin bu (_process_template m rep_id
                      (some seg.number) (some seg.time) (some bw)))) c3
                  have c5 := pyStartsWith_hash_append_pair _ params c4
                  rcases ih tail (by rw [hssd]; exact htail) with ⟨ihc, ihp⟩
                  rw [hL]
                  have := hfinish _ _ tail hext1 hext2 c5.1 rest.length ihc ihp
                  simpa [List.length_cons] using this

theorem except_bind_ok {α β : Type} (x : Except String α) (f : α → Except String β)
    (b : β) (h : (x >>= f) = .ok b) : ∃ a, x = .ok a ∧ f a = .ok b := by
  cases x with
  | error e => simp [Bind.bind, Except.bind] at h
  | ok a => exact ⟨a, rfl, by simpa [Bind.bind, Except.bind] using h⟩

theorem map_section_counts (st : SegmentTemplate) (rep_id : String) (bandwidth : Int)
    (base_url pb params dq : String) (ssd : Bool) :
    countTagged (map_section st rep_id bandwidth base_url pb params dq ssd).1
      "#EXTINF:" = 0 ∧
    countTagged (map_section st rep_id bandwidth base_url pb params dq ssd).1
      "#EXT-X-PROGRAM-DATE-TIME" = 0 := by
  rw [map_section]
  cases st.initialization with
  | none => exact ⟨rfl, rfl⟩
  | some it =>
      by_cases hit : (it == "") = true
      · simp only [hit, if_pos]
        exact ⟨rfl, rfl⟩
      · rw [Bool.not_eq_true] at hit
        simp only [hit, Bool.false_eq_true, if_false]
        constructor <;>
        · rw [countTagged_cons]
          rw [String.append_assoc]
          first
          | rw [(map_line_tags _).1]
          | rw [(map_line_tags _).2]
          simp [countTagged]

theorem live_edge_section_snd_counts (is_live : Bool) (tsbd : Option String)
    (segments : List MediaSeg) :
    countTagged (live_edge_section is_live tsbd segments).2 "#EXTINF:" = 0 ∧
    countTagged (live_edge_section is_live tsbd segments).2
      "#EXT-X-PROGRAM-DATE-TIME" = 0 := by
  rw [live_edge_section]
  by_cases hc : (is_live && !segments.isEmpty) = true
  · simp only [hc, if_pos]
    cases apply_holdback (apply_dvr_window segments (dvr_window_of tsbd)) with
    | nil => exact ⟨rfl, rfl⟩
    | cons s r =>
        constructor <;>
        · rw [countTagged_cons]
          first
          | rw [(seq_line_tags _).1]
          | rw [(seq_line_tags _).2]
          simp [countTagged]
  · rw [Bool.not_eq_true] at hc
    simp only [hc, Bool.false_eq_true, if_false]
    exact ⟨rfl, rfl⟩

theorem target_duration_line_tags (segsF : List MediaSeg) :
    pyStartsWith (target_duration_line segsF) "#EXTINF:" = false ∧
    pyStartsWith (target_duration_line segsF) "#EXT-X-PROGRAM-DATE-TIME" = false := by
  cases segsF with
  | nil => exact ⟨by decide, by decide⟩
  | cons s rest => exact td_line_tags _

theorem countTagged_vod (b : Bool) :
    countTagged (if b then ["#EXT-X-PLAYLIST-TYPE:VOD"] else []) "#EXTINF:" = 0 ∧
    countTagged (if b then ["#EXT-X-PLAYLIST-TYPE:VOD"] else [])
      "#EXT-X-PROGRAM-DATE-TIME" = 0 := by
  cases b <;> exact ⟨by decide, by decide⟩

theorem countTagged_endl (b : Bool) :
    countTagged (if b then ["#EXT-X-ENDLIST"] else []) "#EXTINF:" = 0 ∧
    countTagged (if b then ["#EXT-X-ENDLIST"] else []) "#EXT-X-PROGRAM-DATE-TIME" = 0 := by
  cases b <;> exact ⟨by decide, by decide⟩

/-- Full counting lemma for the generated media playlist: the number of
`#EXTINF` lines equals the number of segments that survive the live-edge
processing, and no `#EXT-X-PROGRAM-DATE-TIME` line is ever emitted. -/
theorem media_lines_counts (doc : MPDDoc) (_a : MPDAdaptationSet)
    (rep : MPDRepresentation) (st : SegmentTemplate) (rep_id pb ou params : String)
    (ck : Option String) (L : List String)
    (hpb : pyStartsWith pb "#" = false)
    (hok : media_playlist_lines doc _a rep st rep_id pb ou params ck = .ok L) :
    countTagged L "#EXTINF:" =
      (live_edge_section (pyLower (doc.typ.getD "static") == "dynamic")
        doc.timeShiftBufferDepth
        (segsOf (built_segments st (pyLower (doc.typ.getD "static") == "dynamic")
          doc.periods))).1.length ∧
    countTagged L "#EXT-X-PROGRAM-DATE-TIME" = 0 := by
  rw [media_playlist_lines] at hok
  obtain ⟨segs, hbs, hok2⟩ := except_bind_ok _ _ _ hok
  obtain ⟨segLines, hrs, hok3⟩ := except_bind_ok _ _ _ hok2
  have hL : L = _ := (Except.ok.inj hok3).symm
  have hsg : segsOf (built_segments st (pyLower (doc.typ.getD "static") == "dynamic")
      doc.periods) = segs := by rw [hbs]; rfl
  rw [hsg, hL]
  have hrc := renderSegs_counts st.media rep_id (rep.bandwidth.getD 0)
    (resolveBaseUrl doc ou) pb params (clearkeyQuery ck).2 (clearkeyQuery ck).1
    (map_section st rep_id (rep.bandwidth.getD 0) (resolveBaseUrl doc ou) pb params
      (clearkeyQuery ck).2 (clearkeyQuery ck).1).2 hpb _ segLines hrs
  have hmap := map_section_counts st rep_id (rep.bandwidth.getD 0)
    (resolveBaseUrl doc ou) pb params (clearkeyQuery ck).2 (clearkeyQuery ck).1
  have hles := live_edge_section_snd_counts (pyLower (doc.typ.getD "static") == "dynamic")
    doc.timeShiftBufferDepth segs
  have htd := target_duration_line_tags
    (live_edge_section (pyLower (doc.typ.getD "static") == "dynamic")
      doc.timeShiftBufferDepth segs).1
  have hvod := countTagged_vod (!(pyLower (doc.typ.getD "static") == "dynamic"))
  have hend := countTagged_endl (!(pyLower (doc.typ.getD "static") == "dynamic"))
  have hpre : (["#EXTM3U", "#EXT-X-VERSION:7"] ++
      (map_section st rep_id (rep.bandwidth.getD 0) (resolveBaseUrl doc ou) pb params
        (clearkeyQuery ck).2 (clearkeyQuery ck).1).1 ++
      (live_edge_section (pyLower (doc.typ.getD "static") == "dynamic")
        doc.timeShiftBufferDepth segs).2).insertIdx 2
      (target_duration_line
        (live_edge_section (pyLower (doc.typ.getD "static") == "dynamic")
          doc.timeShiftBufferDepth segs).1) =
      "#EXTM3U" :: "#EXT-X-VERSION:7" ::
      (target_duration_line
        (live_edge_section (pyLower (doc.typ.getD "static") == "dynamic")
          doc.timeShiftBufferDepth segs).1) ::
      ((map_section st rep_id (rep.bandwidth.getD 0) (resolveBaseUrl doc ou) pb params
        (clearkeyQuery ck).2 (clearkeyQuery ck).1).1 ++
      (live_edge_section (pyLower (doc.typ.getD "static") == "dynamic")
        doc.timeShiftBufferDepth segs).2) := by
    rw [show (["#EXTM3U", "#EXT-X-VERSION:7"] : List String) ++
        (map_section st rep_id (rep.bandwidth.getD 0) (resolveBaseUrl doc ou) pb params
          (clearkeyQuery ck).2 (clearkeyQuery ck).1).1 ++
        (live_edge_section (pyLower (doc.typ.getD "static") == "dynamic")
          doc.timeShiftBufferDepth segs).2 =
        "#EXTM3U" :: "#EXT-X-VERSION:7" ::
        ((map_section st rep_id (rep.bandwidth.getD 0) (resolveBaseUrl doc ou) pb params
          (clearkeyQuery ck).2 (clearkeyQuery ck).1).1 ++
        (live_edge_section (pyLower (doc.typ.getD "static") == "dynamic")
          doc.timeShiftBufferDepth segs).2) from by simp]
    exact insertIdx_two _ _ _ _
  rw [hpre]
  rw [countTagged_append, countTagged_append, countTagged_append,
    countTagged_cons, countTagged_cons, countTagged_cons, countTagged_append]
  rw [countTagged_append, countTagged_append, countTagged_append,
    countTagged_cons, countTagged_cons, countTagged_cons, countTagged_append]
  constructor
  · rw [htd.1, hmap.1, hles.1, hvod.1, hend.1, hrc.1]
    simp [pyStartsWith]
  · rw [htd.2, hmap.2, hles.2, hvod.2, hend.2, hrc.2]
    simp [pyStartsWith]

theorem live_edge_section_fst (tsbd : Option String) (segs : List MediaSeg)
    (hne : segs ≠ []) :
    (live_edge_section true tsbd segs).1 =
      apply_holdback (apply_dvr_window segs (dvr_window_of tsbd)) := by
  rw [live_edge_section]
  rw [if_pos (show (true && !segs.isEmpty) = true by
    simp [List.isEmpty_iff, hne])]

theorem apply_holdback_length (l : List MediaSeg) :
    (apply_holdback l).length =
      if 2 < l.length then l.length - 2 else l.length := by
  by_cases h : 2 < l.length
  · rw [apply_holdback, if_pos h, if_pos h, List.length_take]
    omega
  · rw [apply_holdback, if_neg h, if_neg h]

/-! ## Concrete MPD fixture (5-segment live timeline) -/

/-- Fixture SegmentTemplate: timescale 1, `<S t="0" d="2" r="4"/>` (five
2-second segments), media template with a `$Number$` placeholder. -/
def cSt : SegmentTemplate :=
  ⟨some 1, none, some "seg-$Number$.m4s", some 1, none,
    some [⟨some 0, some 2, some 4⟩], 0⟩

/-- Fixture Representation. -/
def cRep : MPDRepresentation :=
  ⟨some "v", some 1000, some "video/mp4", none, none, none, none, some cSt⟩

/-- Fixture AdaptationSet. -/
def cAset : MPDAdaptationSet := ⟨some "video/mp4", none, none, none, [cRep], none⟩

/-- Fixture live MPD (`type="dynamic"`, no `timeShiftBufferDepth`). -/
def cDocLive : MPDDoc := ⟨some "dynamic", none, none, [], [cAset]⟩

/-! ## Claim C4 -/

/-- C4, counterexample.  For the live fixture (five 2-second segments, no
DVR trim since 10 s < 180 s) the emitted playlist contains 3 `#EXTINF`
entries: the hold-back drops the last 2 segments, not the last 3 claimed
(which would leave only 2 entries). -/
theorem C4_counterexample :
    (segsOf (built_segments cSt true cDocLive.periods)).length = 5 ∧
    countTagged (linesOf (media_playlist_lines cDocLive cAset cRep cSt "v"
      "https://p.example" "https://o.example/a.mpd" "" none)) "#EXTINF:" = 3 ∧
    (3 : Nat) ≠ 5 - 3 := by
  refine ⟨by decide, ?_, by decide⟩
  decide

/-- C4 (amended): for a live MPD, the playlist emits one `#EXTINF` entry
per segment surviving the live-edge processing, and the safety hold-back
excludes the last 2 segments of the DVR-trimmed list (only when more than
2 remain; never 3). -/
theorem C4_amended (doc : MPDDoc) (_a : MPDAdaptationSet) (rep : MPDRepresentation)
    (st : SegmentTemplate) (rep_id pb ou params : String) (ck : Option String)
    (L : List String) (segs : List MediaSeg)
    (hpb : pyStartsWith pb "#" = false)
    (hlive : doc.typ = some "dynamic")
    (hok : media_playlist_lines doc _a rep st rep_id pb ou params ck = .ok L)
    (hbs : built_segments st true doc.periods = .ok segs)
    (hne : segs ≠ []) :
    countTagged L "#EXTINF:" =
      (if 2 < (apply_dvr_window segs (dvr_window_of doc.timeShiftBufferDepth)).length
       then (apply_dvr_window segs (dvr_window_of doc.timeShiftBufferDepth)).length - 2
       else (apply_dvr_window segs (dvr_window_of doc.timeShiftBufferDepth)).length) := by
  have hlb : (pyLower (doc.typ.getD "static") == "dynamic") = true := by
    rw [hlive]
    rfl
  have hcounts := media_lines_counts doc _a rep st rep_id pb ou params ck L hpb hok
  rw [hlb] at hcounts
  have hsg : segsOf (built_segments st true doc.periods) = segs := by
    rw [hbs]
    rfl
  rw [hsg] at hcounts
  rw [hcounts.1, live_edge_section_fst doc.timeShiftBufferDepth segs hne,
    apply_holdback_length]

/-- C4 witness: the amended theorem at the live five-segment fixture. -/
theorem C4_amended_witness :
    countTagged (linesOf (media_playlist_lines cDocLive cAset cRep cSt "v"
      "https://p.example" "https://o.example/a.mpd" "" none)) "#EXTINF:" =
      (if 2 < (apply_dvr_window (segsOf (built_segments cSt true cDocLive.periods))
          (dvr_window_of cDocLive.timeShiftBufferDepth)).length
       then (apply_dvr_window (segsOf (built_segments cSt true cDocLive.periods))
          (dvr_window_of cDocLive.timeShiftBufferDepth)).length - 2
       else (apply_dvr_window (segsOf (built_segments cSt true cDocLive.periods))
          (dvr_window_of cDocLive.timeShiftBufferDepth)).length) :=
  C4_amended cDocLive cAset cRep cSt "v" "https://p.example" "https://o.example/a.mpd"
    "" none _ _ (by decide) rfl rfl rfl (by decide)

/-! ## Claim C6 -/

/-- C6, counterexample.  For a live MPD with a SegmentTimeline (the
fixture; in XML form it may carry any `availabilityStartTime`, which the
converter never reads), the emitted playlist has `#EXTINF` entries but not
a single `#EXT-X-PROGRAM-DATE-TIME` tag before them. -/
theorem C6_counterexample :
    countTagged (linesOf (media_playlist_lines cDocLive cAset cRep cSt "v"
      "https://p.example" "https://o.example/a.mpd" "" none))
      "#EXT-X-PROGRAM-DATE-TIME" = 0 ∧
    0 < countTagged (linesOf (media_playlist_lines cDocLive cAset cRep cSt "v"
      "https://p.example" "https://o.example/a.mpd" "" none)) "#EXTINF:" := by
  constructor
  · decide
  · decide

/-- C6 (amended): the media-playlist converter never emits an
`#EXT-X-PROGRAM-DATE-TIME` tag — no code in `convert_media_playlist` reads
`availabilityStartTime` or produces that tag, for any input. -/
theorem C6_amended (doc : MPDDoc) (_a : MPDAdaptationSet) (rep : MPDRepresentation)
    (st : SegmentTemplate) (rep_id pb ou params : String) (ck : Option String)
    (L : List String)
    (hpb : pyStartsWith pb "#" = false)
    (hok : media_playlist_lines doc _a rep st rep_id pb ou params ck = .ok L) :
    countTagged L "#EXT-X-PROGRAM-DATE-TIME" = 0 :=
  (media_lines_counts doc _a rep st rep_id pb ou params ck L hpb hok).2

/-- C6 witness: the amended theorem at the live fixture. -/
theorem C6_amended_witness :
    countTagged (linesOf (media_playlist_lines cDocLive cAset cRep cSt "v"
      "https://p.example" "https://o.example/a.mpd" "" none))
      "#EXT-X-PROGRAM-DATE-TIME" = 0 :=
  C6_amended cDocLive cAset cRep cSt "v" "https://p.example" "https://o.example/a.mpd"
    "" none _ (by decide) rfl

/-! ## Claim C10 -/

theorem pyStartsWith_append_left_true (pre suf tag : String)
    (h : pyStartsWith pre tag = true) : pyStartsWith (pre ++ suf) tag = true := by
  simp only [pyStartsWith, String.data_append, decide_eq_true_eq] at h ⊢
  exact h.trans (List.prefix_append _ _)

theorem pyIn_append_left (pat a b : String) (h : pyIn pat a = true) :
    pyIn pat (a ++ b) = true := by
  simp only [pyIn, String.data_append, decide_eq_true_eq] at h ⊢
  exact h.trans ⟨[], b.data, by simp⟩

theorem cons_append3_head {α : Type} (x : α) (t a b c : List α) :
    ∃ rest, ((x :: t) ++ a) ++ b ++ c = x :: rest :=
  ⟨t ++ a ++ b ++ c, by simp⟩

/-- Any successful run of the media-playlist line builder starts with the
`#EXTM3U` line. -/
theorem media_playlist_lines_head (doc : MPDDoc) (_a : MPDAdaptationSet)
    (rep : MPDRepresentation) (st : SegmentTemplate) (rep_id pb ou params : String)
    (ck : Option String) (L : List String)
    (hok : media_playlist_lines doc _a rep st rep_id pb ou params ck = .ok L) :
    ∃ rest, L = "#EXTM3U" :: rest := by
  rw [media_playlist_lines] at hok
  obtain ⟨segs, hbs, hok2⟩ := except_bind_ok _ _ _ hok
  obtain ⟨segLines, hrs, hok3⟩ := except_bind_ok _ _ _ hok2
  have hL : L = _ := (Except.ok.inj hok3).symm
  rw [hL]
  rw [show (["#EXTM3U", "#EXT-X-VERSION:7"] : List String) ++
      (map_section st rep_id (rep.bandwidth.getD 0) (resolveBaseUrl doc ou) pb params
        (clearkeyQuery ck).2 (clearkeyQuery ck).1).1 ++
      (live_edge_section (pyLower (doc.typ.getD "static") == "dynamic")
        doc.timeShiftBufferDepth segs).2 =
      "#EXTM3U" :: "#EXT-X-VERSION:7" ::
      ((map_section st rep_id (rep.bandwidth.getD 0) (resolveBaseUrl doc ou) pb params
        (clearkeyQuery ck).2 (clearkeyQuery ck).1).1 ++
      (live_edge_section (pyLower (doc.typ.getD "static") == "dynamic")
        doc.timeShiftBufferDepth segs).2) from by simp]
  rw [insertIdx_two]
  exact cons_append3_head _ _ _ _ _

/-- C10: the MPD→HLS conversion entry points are total and always produce a
string beginning with `#EXTM3U` — for well-formed manifests, manifests that
fail XML parsing, manifests without the requested Representation, and
manifests without a usable SegmentTemplate alike; when the XML parse raised,
the result additionally carries an `#EXT-X-ERROR:` line.  (Totality of the
Lean functions models the source's `try/except` returning in every case
rather than propagating the exception.) -/
theorem C10_theorem (parsed : Except String MPDDoc) (rep_id pb ou params : String)
    (ck : Option String) :
    pyStartsWith (convert_media_playlist parsed rep_id pb ou params ck) "#EXTM3U" = true ∧
    pyStartsWith (convert_master_playlist parsed pb ou params) "#EXTM3U" = true ∧
    (∀ e, parsed = .error e →
      pyIn "#EXT-X-ERROR:" (convert_media_playlist parsed rep_id pb ou params ck) = true ∧
      pyIn "#EXT-X-ERROR:" (convert_master_playlist parsed pb ou params) = true) := by
  refine ⟨?_, ?_, ?_⟩
  · cases parsed with
    | error e => exact pyStartsWith_append_left_true _ _ _ (by decide)
    | ok doc =>
        simp only [convert_media_playlist]
        rcases hfr : findRep doc rep_id with _ | ⟨a, r⟩
        · exact (by decide :
            pyStartsWith "#EXTM3U\n#EXT-X-ERROR: Representation not found" "#EXTM3U" = true)
        · cases hst : r.segmentTemplate <|> a.segmentTemplate with
          | none =>
              simp only [hst]
              exact (by decide : pyStartsWith
                "#EXTM3U\n#EXT-X-ERROR: SegmentTemplate required (SegmentList not supported in this mode)"
                "#EXTM3U" = true)
          | some st =>
              simp only [hst]
              by_cases hcc : st.childCount = 0
              · rw [if_pos hcc]
                exact (by decide : pyStartsWith
                  "#EXTM3U\n#EXT-X-ERROR: SegmentTemplate required (SegmentList not supported in this mode)"
                  "#EXTM3U" = true)
              · rw [if_neg hcc]
                cases hml : media_playlist_lines doc a r st rep_id pb ou params ck with
                | error e =>
                    exact pyStartsWith_append_left_true _ _ _ (by decide)
                | ok L =>
                    obtain ⟨rest, hrest⟩ := media_playlist_lines_head doc a r st
                      rep_id pb ou params ck L hml
                    show pyStartsWith (joinLines L) "#EXTM3U" = true
                    rw [hrest]
                    exact joinLines_startsWith _ _
  · cases parsed with
    | error e => exact pyStartsWith_append_left_true _ _ _ (by decide)
    | ok doc =>
        simp only [convert_master_playlist]
        rw [show (["#EXTM3U", "#EXT-X-VERSION:3"] : List String) ++
            (audioLines pb ou params (classifySets doc.adaptationSets).2.1 0).1 ++
            (subtitleLines pb ou params (classifySets doc.adaptationSets).2.2).1 ++
            videoLines pb ou params
              (audioLines pb ou params (classifySets doc.adaptationSets).2.1 0).2
              (subtitleLines pb ou params (classifySets doc.adaptationSets).2.2).2
              (classifySets doc.adaptationSets).1 =
            "#EXTM3U" :: ("#EXT-X-VERSION:3" ::
            ((audioLines pb ou params (classifySets doc.adaptationSets).2.1 0).1 ++
            ((subtitleLines pb ou params (classifySets doc.adaptationSets).2.2).1 ++
            videoLines pb ou params
              (audioLines pb ou params (classifySets doc.adaptationSets).2.1 0).2
              (subtitleLines pb ou params (classifySets doc.adaptationSets).2.2).2
              (classifySets doc.adaptationSets).1))) from by simp]
        exact joinLines_startsWith _ _
  · intro e he
    subst he
    constructor
    · exact pyIn_append_left _ _ _ (by decide)
    · exact pyIn_append_left _ _ _ (by decide)

/-- C10 witness: the error-path conjunct at a concrete parse failure. -/
theorem C10_witness :
    pyIn "#EXT-X-ERROR:" (convert_media_playlist (.error "not well-formed (invalid token)")
      "v" "https://p.example" "https://o.example/a.mpd" "" none) = true ∧
    pyIn "#EXT-X-ERROR:" (convert_master_playlist (.error "not well-formed (invalid token)")
      "https://p.example" "https://o.example/a.mpd" "") = true :=
  (C10_theorem (.error "not well-formed (invalid token)") "v" "https://p.example"
    "https://o.example/a.mpd" "" none).2.2 "not well-formed (invalid token)" rfl

/-! ## `src/utils/drm_decrypter.py`

Bytes are `List Nat` (one entry per byte).  The AES block cipher comes from
pycryptodome, outside the repository; CTR-mode decryption is modelled as
XOR against the keystream determined by the key and the (zero-padded) IV,
supplied as the explicit parameter `aesKs : key → iv → position → byte`.
All claims proved below hold for every keystream function. -/

/-- An MP4 box (`MP4Atom` in the source): type tag, declared size, payload. -/
structure MP4Atom where
  atom_type : List Nat
  size : Nat
  data : List Nat
deriving DecidableEq, Repr

/-- Four-byte big-endian encoding (`struct.pack(">I", n)`; the value is
masked to 32 bits as `struct.pack` requires it to fit). -/
def be32 (n : Nat) : List Nat :=
  [n / 16777216 % 256, n / 65536 % 256, n / 256 % 256, n % 256]

/-- `MP4Atom.pack`: `struct.pack(">I", size) + atom_type + data`. -/
def MP4Atom.pack (a : MP4Atom) : List Nat := be32 a.size ++ a.atom_type ++ a.data

theorem MP4Atom.pack_length (a : MP4Atom) :
    a.pack.length = 4 + a.atom_type.length + a.data.length := by
  simp [MP4Atom.pack, be32]
  omega

/-- Big-endian value of a byte slice (`struct.unpack_from(">I"/">Q", …)`). -/
def beVal (l : List Nat) : Nat := l.foldl (fun a b => a * 256 + b) 0

/-- ASCII byte tag of a fourcc (e.g. `b"moov"`). -/
def tagOf (s : String) : List Nat := s.data.map Char.toNat

/-- `MP4Parser.read_atom` (lines 36–55): 32-bit size + 4-byte type, 64-bit
extended size when the size field is 1; `none` on any bounds failure.
Returns the atom and the parser's new position. -/
def read_atom (data : List Nat) (pos : Nat) : Option (MP4Atom × Nat) :=
  if pos + 8 > data.length then none
  else
    let size0 := beVal ((data.drop pos).take 4)
    let typ := (data.drop (pos + 4)).take 4
    if size0 = 1 then
      if pos + 8 + 8 > data.length then none
      else
        let size := beVal ((data.drop (pos + 8)).take 8)
        if size < 8 ∨ pos + 16 + (size - 8) > data.length then none
        else some (⟨typ, size, (data.drop (pos + 16)).take (size - 8)⟩, pos + 16 + (size - 8))
    else
      if size0 < 8 ∨ pos + 8 + (size0 - 8) > data.length then none
      else some (⟨typ, size0, (data.drop (pos + 8)).take (size0 - 8)⟩, pos + 8 + (size0 - 8))

/-- Fuel-driven body of `MP4Parser.list_atoms` (lines 57–66; the same loop
as `iter(parser.read_atom, None)`): read atoms until a failure.  Every
successful read advances the position by at least 8, so `data.length + 1`
fuel always suffices and the fuelled loop equals the unbounded one. -/
def list_atoms_aux (data : List Nat) : Nat → Nat → List MP4Atom
  | 0, _ => []
  | fuel + 1, pos =>
      if pos + 8 > data.length then []
      else
        match read_atom data pos with
        | none => []
        | some (a, pos2) => a :: list_atoms_aux data fuel pos2

/-- `MP4Parser.list_atoms`. -/
def list_atoms (data : List Nat) : List MP4Atom :=
  list_atoms_aux data (data.length + 1) 0

/-- `MP4Decrypter._extract_real_format` (lines 459–464): the payload of the
first `frma` child, if any. -/
def _extract_real_format (sinf : MP4Atom) : Option (List Nat) :=
  ((list_atoms sinf.data).find? (fun atom => atom.atom_type == tagOf "frma")).map
    MP4Atom.data

/-- `MP4Decrypter._process_sample_entry` (lines 426–457): strip the
protection boxes (`sinf`, `schi`, `tenc`, `schm`) from a sample entry,
remember the real format from the (last) `sinf`'s `frma`, and rewrite the
entry type (`encv`→`avc1`, `enca`→`mp4a`). -/
def _process_sample_entry (entry : MP4Atom) : MP4Atom :=
  let head_sz :=
    if entry.atom_type == tagOf "mp4a" || entry.atom_type == tagOf "enca" then 28
    else if entry.atom_type == tagOf "mp4v" || entry.atom_type == tagOf "encv" ||
        entry.atom_type == tagOf "avc1" || entry.atom_type == tagOf "hvc1" ||
        entry.atom_type == tagOf "hev1" then 78
    else 16
  let res := (list_atoms (entry.data.drop head_sz)).foldl
    (fun (acc : List Nat × Option (List Nat)) atom =>
      if atom.atom_type == tagOf "sinf" || atom.atom_type == tagOf "schi" ||
          atom.atom_type == tagOf "tenc" || atom.atom_type == tagOf "schm" then
        if atom.atom_type == tagOf "sinf" then (acc.1, _extract_real_format atom)
        else acc
      else (acc.1 ++ atom.pack, acc.2))
    (entry.data.take head_sz, none)
  let final_type0 := match res.2 with
    | some f => f
    | none => entry.atom_type
  let final_type :=
    if final_type0 == tagOf "encv" then tagOf "avc1"
    else if final_type0 == tagOf "enca" then tagOf "mp4a"
    else final_type0
  ⟨final_type, res.1.length + 8, res.1⟩

/-- `MP4Decrypter._process_stsd` (lines 410–424): keep the 8-byte
version/flags+count header, re-pack the first `entry_count` sample entries
through `_process_sample_entry`.  A payload shorter than 8 bytes raises in
`struct.unpack_from`. -/
def _process_stsd (stsd : MP4Atom) : Except String MP4Atom :=
  if stsd.data.length < 8 then
    .error "struct.error: unpack_from requires a buffer of at least 8 bytes"
  else
    let entry_count := beVal ((stsd.data.drop 4).take 4)
    let body := ((((list_atoms (stsd.data.drop 8)).take entry_count).map
      (fun e => (_process_sample_entry e).pack))).flatten
    let nd := stsd.data.take 8 ++ body
    .ok ⟨tagOf "stsd", nd.length + 8, nd⟩

/-- Shared shape of the `_process_stbl`/`_process_minf`/`_process_mdia`/
`_process_trak` loops: re-pack children in order, transforming the ones of
the special type. -/
def processChildrenE (special : List Nat) (f : MP4Atom → Except String MP4Atom) :
    List MP4Atom → Except String (List Nat)
  | [] => .ok []
  | a :: rest => do
      let part ← if a.atom_type == special then (f a).map MP4Atom.pack else .ok a.pack
      let tail ← processChildrenE special f rest
      .ok (part ++ tail)

/-- `MP4Decrypter._process_stbl` (lines 400–408). -/
def _process_stbl (stbl : MP4Atom) : Except String MP4Atom := do
  let nd ← processChildrenE (tagOf "stsd") _process_stsd (list_atoms stbl.data)
  .ok ⟨tagOf "stbl", nd.length + 8, nd⟩

/-- `MP4Decrypter._process_minf` (lines 390–398). -/
def _process_minf (minf : MP4Atom) : Except String MP4Atom := do
  let nd ← processChildrenE (tagOf "stbl") _process_stbl (list_atoms minf.data)
  .ok ⟨tagOf "minf", nd.length + 8, nd⟩

/-- `MP4Decrypter._process_mdia` (lines 380–388). -/
def _process_mdia (mdia : MP4Atom) : Except String MP4Atom := do
  let nd ← processChildrenE (tagOf "minf") _process_minf (list_atoms mdia.data)
  .ok ⟨tagOf "mdia", nd.length + 8, nd⟩

/-- `MP4Decrypter._process_trak` (lines 370–378). -/
def _process_trak (trak : MP4Atom) : Except String MP4Atom := do
  let nd ← processChildrenE (tagOf "mdia") _process_mdia (list_atoms trak.data)
  .ok ⟨tagOf "trak", nd.length + 8, nd⟩

/-- Child loop of `_process_moov` (lines 133–146): `trak` children are
processed, `pssh` and `uuid` children are dropped, everything else passes
through. -/
def moovChildren : List MP4Atom → Except String (List Nat)
  | [] => .ok []
  | a :: rest => do
      let part ←
        if a.atom_type == tagOf "trak" then (_process_trak a).map MP4Atom.pack
        else if a.atom_type == tagOf "pssh" || a.atom_type == tagOf "uuid" then
          Except.ok []
        else Except.ok a.pack
      let tail ← moovChildren rest
      .ok (part ++ tail)

/-- `MP4Decrypter._process_moov` (lines 133–146). -/
def _process_moov (moov : MP4Atom) : Except String MP4Atom := do
  let nd ← moovChildren (list_atoms moov.data)
  .ok ⟨tagOf "moov", nd.length + 8, nd⟩

/-- `CENCSampleAuxiliaryDataFormat`. -/
structure CencInfo where
  is_encrypted : Bool
  iv : List Nat
  sub_samples : List (Nat × Nat)
deriving DecidableEq, Repr

/-- CTR decryption of one chunk starting at the given keystream offset:
byte-wise XOR against the keystream (length-preserving by nature of the
stream cipher). -/
def ctrXor (ks : Nat → Nat) (off : Nat) (chunk : List Nat) : List Nat :=
  chunk.mapIdx (fun i b => b ^^^ ks (off + i))

/-- `MP4Decrypter._process_sample` (lines 334–355): full-sample decryption
when no subsample entries are present; otherwise alternate clear and
decrypted ranges, with any residual bytes decrypted at the end.  The
keystream offset tracks how many bytes the `cipher` object has produced. -/
def _process_sample (aesKs : List Nat → List Nat → Nat → Nat) (sample : List Nat)
    (info : CencInfo) (key : List Nat) : List Nat :=
  if !info.is_encrypted then sample
  else
    let iv := info.iv ++ List.replicate (16 - info.iv.length) 0
    let ks := aesKs key iv
    if info.sub_samples.isEmpty then ctrXor ks 0 sample
    else
      let fin := info.sub_samples.foldl
        (fun (acc : Nat × Nat × List Nat) p =>
          let clearPart := (sample.drop acc.1).take p.1
          let off1 := acc.1 + p.1
          let encChunk := (sample.drop off1).take p.2
          (off1 + p.2, (acc.2.1 + encChunk.length,
            acc.2.2 ++ clearPart ++ ctrXor ks acc.2.1 encChunk)))
        (0, 0, [])
      if fin.1 < sample.length then
        fin.2.2 ++ ctrXor ks fin.2.1 (sample.drop fin.1)
      else fin.2.2

/-- Mutable state of `MP4Decrypter` relevant to `_decrypt_mdat`. -/
structure DecState where
  current_key : Option (List Nat)
  current_sample_info : List CencInfo
  trun_sample_sizes : List Nat
deriving Repr

/-- Sample loop of `_decrypt_mdat` (lines 282–294): per-sample size from the
parsed `trun` (falling back to the rest of the payload), bounds check with
`break`, chunk decryption.  Returns the decrypted bytes and the final
read position. -/
def mdat_loop (aesKs : List Nat → List Nat → Nat → Nat) (key : List Nat)
    (sizes : List Nat) (src : List Nat) :
    List CencInfo → Nat → Nat → List Nat × Nat
  | [], _, pos => ([], pos)
  | info :: rest, i, pos =>
      let size :=
        match sizes.get? i with
        | some sz => if sz > 0 then sz else src.length - pos
        | none => src.length - pos
      if pos + size > src.length then ([], pos)
      else
        let chunk := (src.drop pos).take size
        let dec := _process_sample aesKs chunk info key
        let tail := mdat_loop aesKs key sizes src rest (i + 1) (pos + size)
        (dec ++ tail.1, tail.2)

/-- `MP4Decrypter._decrypt_mdat` (lines 273–300): untouched when no key or
no sample info is at hand; otherwise decrypt sample by sample and copy any
residual bytes. -/
def _decrypt_mdat (aesKs : List Nat → List Nat → Nat → Nat) (st : DecState)
    (mdat : MP4Atom) : MP4Atom :=
  match st.current_key with
  | none => mdat
  | some key =>
      if key.isEmpty || st.current_sample_info.isEmpty then mdat
      else
        let lp := mdat_loop aesKs key st.trun_sample_sizes mdat.data
          st.current_sample_info 0 0
        let decrypted :=
          if lp.2 < mdat.data.length then lp.1 ++ mdat.data.drop lp.2 else lp.1
        ⟨tagOf "mdat", decrypted.length + 8, decrypted⟩

/-- `MP4Decrypter._get_key_for_track` (lines 357–367).  A one-entry key map
short-circuits to its only value, for any track ID.  Any other map size
reaches `tid.pack(4, "big")`, which raises `AttributeError` — Python ints
have no `pack` method (the comment "Cerca per TID (4 byte big endian)"
shows `to_bytes` was meant); the by-TID lookup and the `ValueError` below
it are dead code. -/
def _get_key_for_track (key_map : List (List Nat × List Nat)) (_tid : Nat) :
    Except String (List Nat) :=
  match key_map with
  | [(_kid, key)] => .ok key
  | _ => .error "AttributeError: int object has no attribute pack"

/-- The key-setup step of `_process_traf` (lines 193–198): the track ID is
read from the `tfhd` payload at offset 4 and `_get_key_for_track` is
called inside `try: … except: pass`, so any exception (a short `tfhd`
buffer, or the `AttributeError` above) leaves `current_key` unchanged. -/
def traf_key_setup (key_map : List (List Nat × List Nat)) (tfhd : Option MP4Atom)
    (prev_key : Option (List Nat)) : Option (List Nat) :=
  match tfhd with
  | none => prev_key
  | some t =>
      if t.data.length < 8 then prev_key
      else
        match _get_key_for_track key_map (beVal ((t.data.drop 4).take 4)) with
        | .ok k => some k
        | .error _ => prev_key

/-! ## Length accounting for the box parser (claim C9) -/

theorem read_atom_spec (data : List Nat) (pos : Nat) (p : MP4Atom × Nat)
    (h : read_atom data pos = some p) :
    p.1.atom_type.length = 4 ∧ p.1.pack.length + pos ≤ p.2 ∧
    pos + 8 ≤ p.2 ∧ p.2 ≤ data.length := by
  simp only [read_atom] at h
  split at h
  · exact absurd h (by simp)
  · rename_i h1
    split at h
    · split at h
      · exact absurd h (by simp)
      · split at h
        · exact absurd h (by simp)
        · rename_i h2 h3 h4
          have hp := (Option.some.inj h).symm
          subst hp
          push_neg at h1 h3 h4
          refine ⟨?_, ?_, ?_, ?_⟩ <;>
            simp [MP4Atom.pack_length, List.length_take, List.length_drop] <;> omega
    · split at h
      · exact absurd h (by simp)
      · rename_i h2 h4
        have hp := (Option.some.inj h).symm
        subst hp
        push_neg at h1 h4
        refine ⟨?_, ?_, ?_, ?_⟩ <;>
          simp [MP4Atom.pack_length, List.length_take, List.length_drop] <;> omega

theorem list_atoms_aux_bound (data : List Nat) :
    ∀ (fuel pos : Nat),
      ((list_atoms_aux data fuel pos).map (fun a => a.pack.length)).sum ≤
        data.length - pos ∧
      ∀ a ∈ list_atoms_aux data fuel pos, a.atom_type.length = 4 := by
  intro fuel
  induction fuel with
  | zero => intro pos; simp [list_atoms_aux]
  | succ n ih =>
      intro pos
      rw [list_atoms_aux]
      split
      · simp
      · rename_i h1
        cases hr : read_atom data pos with
        | none => simp
        | some p =>
            obtain ⟨ht, hle, hadv, hbnd⟩ := read_atom_spec data pos p hr
            have := ih p.2
            constructor
            · simp only [List.map_cons, List.sum_cons]
              omega
            · intro a ha
              simp only [List.mem_cons] at ha
              rcases ha with ha | ha
              · rw [ha]; exact ht
              · exact this.2 a ha

theorem list_atoms_bound (data : List Nat) :
    ((list_atoms data).map (fun a => a.pack.length)).sum ≤ data.length ∧
    ∀ a ∈ list_atoms data, a.atom_type.length = 4 := by
  have := list_atoms_aux_bound data (data.length + 1) 0
  simpa [list_atoms] using this

/-- Cost of the remembered real format: a `some f` was extracted from a
dropped `sinf` box that is at least `f.length + 16` packed bytes long. -/
def rfCost : Option (List Nat) → Nat
  | none => 0
  | some f => f.length + 16

theorem extract_real_format_cost (sinf : MP4Atom) (h4 : sinf.atom_type.length = 4) :
    rfCost (_extract_real_format sinf) ≤ sinf.pack.length := by
  rw [_extract_real_format]
  cases hf : (list_atoms sinf.data).find? (fun atom => atom.atom_type == tagOf "frma") with
  | none => simp [rfCost, MP4Atom.pack_length]
  | some m =>
      have hmem := List.mem_of_find?_eq_some hf
      have hbnd := (list_atoms_bound sinf.data).1
      have hm4 := (list_atoms_bound sinf.data).2 m hmem
      have hmle : m.pack.length ≤ ((list_atoms sinf.data).map
          (fun a => a.pack.length)).sum :=
        List.single_le_sum (fun x _ => Nat.zero_le x) _ (List.mem_map_of_mem _ hmem)
      show rfCost (some m.data) ≤ _
      simp only [rfCost]
      rw [MP4Atom.pack_length sinf, h4]
      rw [MP4Atom.pack_length m, hm4] at hmle
      omega

theorem entry_fold_bound (l : List MP4Atom) :
    ∀ (acc : List Nat × Option (List Nat)),
      (∀ a ∈ l, a.atom_type.length = 4) →
      ((l.foldl
        (fun (acc : List Nat × Option (List Nat)) atom =>
          if atom.atom_type == tagOf "sinf" || atom.atom_type == tagOf "schi" ||
              atom.atom_type == tagOf "tenc" || atom.atom_type == tagOf "schm" then
            if atom.atom_type == tagOf "sinf" then (acc.1, _extract_real_format atom)
            else acc
          else (acc.1 ++ atom.pack, acc.2)) acc).1.length +
        rfCost (l.foldl
        (fun (acc : List Nat × Option (List Nat)) atom =>
          if atom.atom_type == tagOf "sinf" || atom.atom_type == tagOf "schi" ||
              atom.atom_type == tagOf "tenc" || atom.atom_type == tagOf "schm" then
            if atom.atom_type == tagOf "sinf" then (acc.1, _extract_real_format atom)
            else acc
          else (acc.1 ++ atom.pack, acc.2)) acc).2) ≤
      acc.1.length + rfCost acc.2 + (l.map (fun a => a.pack.length)).sum := by
  induction l with
  | nil => intro acc _; simp
  | cons x rest ih =>
      intro acc h4
      have hx4 : x.atom_type.length = 4 := h4 x (by simp)
      have hrest : ∀ a ∈ rest, a.atom_type.length = 4 := fun a ha => h4 a (by simp [ha])
      simp only [List.foldl_cons, List.map_cons, List.sum_cons]
      by_cases hprot : (x.atom_type == tagOf "sinf" || x.atom_type == tagOf "schi" ||
          x.atom_type == tagOf "tenc" || x.atom_type == tagOf "schm") = true
      · rw [if_pos hprot]
        by_cases hsinf : (x.atom_type == tagOf "sinf") = true
        · rw [if_pos hsinf]
          have := ih (acc.1, _extract_real_format x) hrest
          have hcost := extract_real_format_cost x hx4
          simp only [] at this
          omega
        · rw [if_neg hsinf]
          have := ih acc hrest
          omega
      · rw [if_neg hprot]
        have := ih (acc.1 ++ x.pack, acc.2) hrest
        simp only [List.length_append] at this
        omega
theorem pack_length_mk (t : List Nat) (s : Nat) (d : List Nat) :
    (MP4Atom.mk t s d).pack.length = 4 + t.length + d.length :=
  MP4Atom.pack_length _

theorem _process_sample_entry_le (entry : MP4Atom) (h4 : entry.atom_type.length = 4) :
    (_process_sample_entry entry).pack.length ≤ entry.pack.length := by
  rw [_process_sample_entry]
  set hsz := (if entry.atom_type == tagOf "mp4a" || entry.atom_type == tagOf "enca" then 28
    else if entry.atom_type == tagOf "mp4v" || entry.atom_type == tagOf "encv" ||
        entry.atom_type == tagOf "avc1" || entry.atom_type == tagOf "hvc1" ||
        entry.atom_type == tagOf "hev1" then 78
    else 16) with hh
  have hchild := list_atoms_bound (entry.data.drop hsz)
  have hfold := entry_fold_bound (list_atoms (entry.data.drop hsz))
    (entry.data.take hsz, none) hchild.2
  have hsum := hchild.1
  have hdl : (entry.data.drop hsz).length = entry.data.length - hsz := by
    simp [List.length_drop]
  rw [hdl] at hsum
  set res := (list_atoms (entry.data.drop hsz)).foldl
    (fun (acc : List Nat × Option (List Nat)) atom =>
      if atom.atom_type == tagOf "sinf" || atom.atom_type == tagOf "schi" ||
          atom.atom_type == tagOf "tenc" || atom.atom_type == tagOf "schm" then
        if atom.atom_type == tagOf "sinf" then (acc.1, _extract_real_format atom)
        else acc
      else (acc.1 ++ atom.pack, acc.2)) (entry.data.take hsz, none) with hres
  simp only [rfCost, List.length_take] at hfold
  have htk : min hsz entry.data.length ≤ entry.data.length := Nat.min_le_right _ _
  rw [MP4Atom.pack_length entry, h4, pack_length_mk]
  have h41 : (tagOf "avc1").length = 4 := by decide
  have h42 : (tagOf "mp4a").length = 4 := by decide
  cases hr2 : res.2 with
  | none =>
      rw [hr2] at hfold
      simp only [rfCost] at hfold
      have hft : (match (none : Option (List Nat)) with
          | some f => f
          | none => entry.atom_type) = entry.atom_type := rfl
      rw [hft]
      by_cases he1 : (entry.atom_type == tagOf "encv") = true
      · rw [if_pos he1, h41]; omega
      · rw [if_neg he1]
        by_cases he2 : (entry.atom_type == tagOf "enca") = true
        · rw [if_pos he2, h42]; omega
        · rw [if_neg he2, h4]; omega
  | some f =>
      rw [hr2] at hfold
      simp only [rfCost] at hfold
      have hft : (match (some f : Option (List Nat)) with
          | some f => f
          | none => entry.atom_type) = f := rfl
      rw [hft]
      by_cases he1 : (f == tagOf "encv") = true
      · rw [if_pos he1, h41]; omega
      · rw [if_neg he1]
        by_cases he2 : (f == tagOf "enca") = true
        · rw [if_pos he2, h42]; omega
        · rw [if_neg he2]; omega

theorem except_map_ok {α β : Type} (x : Except String α) (f : α → β) (b : β)
    (h : x.map f = .ok b) : ∃ a, x = .ok a ∧ b = f a := by
  cases x with
  | error e => exact absurd h (by simp [Except.map])
  | ok a => exact ⟨a, rfl, (Except.ok.inj h).symm⟩

theorem _process_stsd_le (stsd : MP4Atom) (h4 : stsd.atom_type.length = 4)
    (out : MP4Atom) (h : _process_stsd stsd = .ok out) :
    out.pack.length ≤ stsd.pack.length := by
  rw [_process_stsd] at h
  split at h
  · exact absurd h (by simp)
  · rename_i hlen
    replace h := (Except.ok.inj h).symm
    subst h
    rw [pack_length_mk, MP4Atom.pack_length stsd, h4]
    have h4t : (tagOf "stsd").length = 4 := by decide
    rw [h4t]
    have hbnd := list_atoms_bound (stsd.data.drop 8)
    have hmono : ((((list_atoms (stsd.data.drop 8)).take
          (beVal ((stsd.data.drop 4).take 4))).map
        (fun e => (_process_sample_entry e).pack)).flatten).length ≤
        (((list_atoms (stsd.data.drop 8)).take
          (beVal ((stsd.data.drop 4).take 4))).map
        (fun a => a.pack.length)).sum := by
      rw [List.length_flatten]
      rw [List.map_map]
      exact List.sum_le_sum (fun e he => _process_sample_entry_le e
        (hbnd.2 e (List.mem_of_mem_take he)))
    have htk : (((list_atoms (stsd.data.drop 8)).take
          (beVal ((stsd.data.drop 4).take 4))).map
        (fun a => a.pack.length)).sum ≤
        ((list_atoms (stsd.data.drop 8)).map (fun a => a.pack.length)).sum := by
      conv_rhs => rw [← List.take_append_drop (beVal ((stsd.data.drop 4).take 4))
        (list_atoms (stsd.data.drop 8))]
      rw [List.map_append, List.sum_append]
      exact Nat.le_add_right _ _
    have hdl : (stsd.data.drop 8).length = stsd.data.length - 8 := by
      simp [List.length_drop]
    have hb := hbnd.1
    rw [hdl] at hb
    simp only [List.length_append, List.length_take]
    omega

theorem processChildrenE_le (special : List Nat) (f : MP4Atom → Except String MP4Atom)
    (hf : ∀ a, a.atom_type.length = 4 → ∀ out, f a = .ok out →
      out.pack.length ≤ a.pack.length) :
    ∀ l, (∀ a ∈ l, a.atom_type.length = 4) → ∀ nd,
      processChildrenE special f l = .ok nd →
      nd.length ≤ (l.map (fun a => a.pack.length)).sum := by
  intro l
  induction l with
  | nil =>
      intro _ nd h
      rw [processChildrenE] at h
      simp [(Except.ok.inj h).symm]
  | cons a rest ih =>
      intro h4 nd h
      rw [processChildrenE] at h
      by_cases hs : (a.atom_type == special) = true
      · rw [if_pos hs] at h
        obtain ⟨part, hpart, h2⟩ := except_bind_ok _ _ _ h
        obtain ⟨tail, htail, h3⟩ := except_bind_ok _ _ _ h2
        replace h3 := (Except.ok.inj h3).symm
        subst h3
        have htb := ih (fun x hx => h4 x (by simp [hx])) tail htail
        obtain ⟨o, ho, hpo⟩ := except_map_ok _ _ _ hpart
        have hpb : part.length ≤ a.pack.length := by
          rw [hpo]
          exact hf a (h4 a (by simp)) o ho
        simp only [List.map_cons, List.sum_cons, List.length_append]
        omega
      · rw [if_neg hs] at h
        obtain ⟨part, hpart, h2⟩ := except_bind_ok _ _ _ h
        obtain ⟨tail, htail, h3⟩ := except_bind_ok _ _ _ h2
        replace h3 := (Except.ok.inj h3).symm
        subst h3
        have htb := ih (fun x hx => h4 x (by simp [hx])) tail htail
        have hpb : part.length ≤ a.pack.length := by
          simp [(Except.ok.inj hpart).symm]
        simp only [List.map_cons, List.sum_cons, List.length_append]
        omega

theorem _process_stbl_le (stbl : MP4Atom) (h4 : stbl.atom_type.length = 4)
    (out : MP4Atom) (h : _process_stbl stbl = .ok out) :
    out.pack.length ≤ stbl.pack.length := by
  rw [_process_stbl] at h
  obtain ⟨nd, hnd, h2⟩ := except_bind_ok _ _ _ h
  replace h2 := (Except.ok.inj h2).symm
  subst h2
  have hbnd := list_atoms_bound stbl.data
  have hb := processChildrenE_le _ _ _process_stsd_le _ hbnd.2 nd hnd
  rw [pack_length_mk, MP4Atom.pack_length stbl, h4]
  have h4t : (tagOf "stbl").length = 4 := by decide
  rw [h4t]
  omega

theorem _process_minf_le (minf : MP4Atom) (h4 : minf.atom_type.length = 4)
    (out : MP4Atom) (h : _process_minf minf = .ok out) :
    out.pack.length ≤ minf.pack.length := by
  rw [_process_minf] at h
  obtain ⟨nd, hnd, h2⟩ := except_bind_ok _ _ _ h
  replace h2 := (Except.ok.inj h2).symm
  subst h2
  have hbnd := list_atoms_bound minf.data
  have hb := processChildrenE_le _ _ _process_stbl_le _ hbnd.2 nd hnd
  rw [pack_length_mk, MP4Atom.pack_length minf, h4]
  have h4t : (tagOf "minf").length = 4 := by decide
  rw [h4t]
  omega

theorem _process_mdia_le (mdia : MP4Atom) (h4 : mdia.atom_type.length = 4)
    (out : MP4Atom) (h : _process_mdia mdia = .ok out) :
    out.pack.length ≤ mdia.pack.length := by
  rw [_process_mdia] at h
  obtain ⟨nd, hnd, h2⟩ := except_bind_ok _ _ _ h
  replace h2 := (Except.ok.inj h2).symm
  subst h2
  have hbnd := list_atoms_bound mdia.data
  have hb := processChildrenE_le _ _ _process_minf_le _ hbnd.2 nd hnd
  rw [pack_length_mk, MP4Atom.pack_length mdia, h4]
  have h4t : (tagOf "mdia").length = 4 := by decide
  rw [h4t]
  omega

theorem _process_trak_le (trak : MP4Atom) (h4 : trak.atom_type.length = 4)
    (out : MP4Atom) (h : _process_trak trak = .ok out) :
    out.pack.length ≤ trak.pack.length := by
  rw [_process_trak] at h
  obtain ⟨nd, hnd, h2⟩ := except_bind_ok _ _ _ h
  replace h2 := (Except.ok.inj h2).symm
  subst h2
  have hbnd := list_atoms_bound trak.data
  have hb := processChildrenE_le _ _ _process_mdia_le _ hbnd.2 nd hnd
  rw [pack_length_mk, MP4Atom.pack_length trak, h4]
  have h4t : (tagOf "trak").length = 4 := by decide
  rw [h4t]
  omega

theorem moovChildren_le :
    ∀ l, (∀ a ∈ l, a.atom_type.length = 4) → ∀ nd,
      moovChildren l = .ok nd →
      nd.length ≤ (l.map (fun a => a.pack.length)).sum := by
  intro l
  induction l with
  | nil =>
      intro _ nd h
      rw [moovChildren] at h
      simp [(Except.ok.inj h).symm]
  | cons a rest ih =>
      intro h4 nd h
      rw [moovChildren] at h
      by_cases hs : (a.atom_type == tagOf "trak") = true
      · rw [if_pos hs] at h
        obtain ⟨part, hpart, h2⟩ := except_bind_ok _ _ _ h
        obtain ⟨tail, htail, h3⟩ := except_bind_ok _ _ _ h2
        replace h3 := (Except.ok.inj h3).symm
        subst h3
        have htb := ih (fun x hx => h4 x (by simp [hx])) tail htail
        obtain ⟨o, ho, hpo⟩ := except_map_ok _ _ _ hpart
        have hpb : part.length ≤ a.pack.length := by
          rw [hpo]
          exact _process_trak_le a (h4 a (by simp)) o ho
        simp only [List.map_cons, List.sum_cons, List.length_append]
        omega
      · rw [if_neg hs] at h
        by_cases hd : (a.atom_type == tagOf "pssh" || a.atom_type == tagOf "uuid") = true
        · rw [if_pos hd] at h
          obtain ⟨part, hpart, h2⟩ := except_bind_ok _ _ _ h
          obtain ⟨tail, htail, h3⟩ := except_bind_ok _ _ _ h2
          replace h3 := (Except.ok.inj h3).symm
          subst h3
          have htb := ih (fun x hx => h4 x (by simp [hx])) tail htail
          have hpb : part.length ≤ a.pack.length := by
            simp [(Except.ok.inj hpart).symm]
          simp only [List.map_cons, List.sum_cons, List.length_append]
          omega
        · rw [if_neg hd] at h
          obtain ⟨part, hpart, h2⟩ := except_bind_ok _ _ _ h
          obtain ⟨tail, htail, h3⟩ := except_bind_ok _ _ _ h2
          replace h3 := (Except.ok.inj h3).symm
          subst h3
          have htb := ih (fun x hx => h4 x (by simp [hx])) tail htail
          have hpb : part.length ≤ a.pack.length := by
            simp [(Except.ok.inj hpart).symm]
          simp only [List.map_cons, List.sum_cons, List.length_append]
          omega

theorem _process_moov_le (moov : MP4Atom) (h4 : moov.atom_type.length = 4)
    (out : MP4Atom) (h : _process_moov moov = .ok out) :
    out.pack.length ≤ moov.pack.length := by
  rw [_process_moov] at h
  obtain ⟨nd, hnd, h2⟩ := except_bind_ok _ _ _ h
  replace h2 := (Except.ok.inj h2).symm
  subst h2
  have hbnd := list_atoms_bound moov.data
  have hb := moovChildren_le _ hbnd.2 nd hnd
  rw [pack_length_mk, MP4Atom.pack_length moov, h4]
  have h4t : (tagOf "moov").length = 4 := by decide
  rw [h4t]
  omega

/-! ## Length accounting for `mdat` decryption (claim C9, part B) -/

theorem ctrXor_length (ks : Nat → Nat) (off : Nat) (chunk : List Nat) :
    (ctrXor ks off chunk).length = chunk.length := by
  simp [ctrXor]

theorem _process_sample_nosub (aesKs : List Nat → List Nat → Nat → Nat)
    (sample : List Nat) (info : CencInfo) (key : List Nat)
    (hsub : info.sub_samples = []) :
    (_process_sample aesKs sample info key).length = sample.length := by
  rw [_process_sample]
  by_cases he : (!info.is_encrypted) = true
  · rw [if_pos he]
  · rw [if_neg he]
    have : info.sub_samples.isEmpty = true := by rw [hsub]; rfl
    rw [if_pos this, ctrXor_length]

theorem mdat_loop_spec (aesKs : List Nat → List Nat → Nat → Nat) (key : List Nat)
    (sizes : List Nat) (src : List Nat) :
    ∀ (infos : List CencInfo), (∀ info ∈ infos, info.sub_samples = []) →
    ∀ (i pos : Nat), pos ≤ src.length →
      (mdat_loop aesKs key sizes src infos i pos).1.length + pos =
        (mdat_loop aesKs key sizes src infos i pos).2 ∧
      (mdat_loop aesKs key sizes src infos i pos).2 ≤ src.length := by
  intro infos
  induction infos with
  | nil =>
      intro _ i pos hpos
      rw [mdat_loop]
      simpa using hpos
  | cons info rest ih =>
      intro hsub i pos hpos
      rw [mdat_loop]
      set size :=
        (match sizes.get? i with
        | some sz => if sz > 0 then sz else src.length - pos
        | none => src.length - pos) with hsz
      by_cases hover : pos + size > src.length
      · rw [if_pos hover]
        simpa using hpos
      · rw [if_neg hover]
        push_neg at hover
        have hrest := ih (fun x hx => hsub x (by simp [hx])) (i + 1) (pos + size) hover
        have hchunk : ((src.drop pos).take size).length = size := by
          simp only [List.length_take, List.length_drop]
          omega
        have hdec := _process_sample_nosub aesKs ((src.drop pos).take size) info key
          (hsub info (by simp))
        constructor
        · simp only [List.length_append]
          rw [hdec, hchunk]
          omega
        · exact hrest.2

theorem _decrypt_mdat_len (aesKs : List Nat → List Nat → Nat → Nat) (st : DecState)
    (mdat : MP4Atom) (hsub : ∀ info ∈ st.current_sample_info, info.sub_samples = []) :
    (_decrypt_mdat aesKs st mdat).data.length = mdat.data.length := by
  obtain ⟨ck, csi, tss⟩ := st
  cases ck with
  | none => rfl
  | some key =>
      simp only [_decrypt_mdat]
      by_cases hempty : (key.isEmpty || csi.isEmpty) = true
      · rw [if_pos hempty]
      · rw [if_neg hempty]
        have hlp := mdat_loop_spec aesKs key tss mdat.data csi hsub 0 0 (Nat.zero_le _)
        set lp := mdat_loop aesKs key tss mdat.data csi 0 0 with hlpdef
        by_cases hres : lp.2 < mdat.data.length
        · rw [if_pos hres]
          simp only [List.length_append, List.length_drop]
          omega
        · rw [if_neg hres]
          push_neg at hres
          show lp.1.length = mdat.data.length
          omega

/-- **C9** — For every input byte sequence, the fMP4 decryptor's output
`moov` box is no longer in bytes than the input `moov` box, and when no
sample of the fragment carries subsample partitioning, the output `mdat`
payload has exactly the same byte length as the input `mdat` payload. -/
theorem C9_theorem :
    (∀ moov : MP4Atom, moov.atom_type.length = 4 →
      ∀ out, _process_moov moov = .ok out → out.pack.length ≤ moov.pack.length) ∧
    (∀ (aesKs : List Nat → List Nat → Nat → Nat) (st : DecState) (mdat : MP4Atom),
      (∀ info ∈ st.current_sample_info, info.sub_samples = []) →
      (_decrypt_mdat aesKs st mdat).data.length = mdat.data.length) :=
  ⟨fun moov h4 out h => _process_moov_le moov h4 out h,
   fun aesKs st mdat hsub => _decrypt_mdat_len aesKs st mdat hsub⟩

/-- A `moov` whose single child is a `pssh` box (dropped by the decrypter). -/
def c9moov : MP4Atom := ⟨tagOf "moov", 16, be32 8 ++ tagOf "pssh"⟩

/-- Decrypter state with one key and one full-sample (no subsample) entry. -/
def c9st : DecState := ⟨some [1], [⟨true, [0], []⟩], [0]⟩

/-- A four-byte `mdat` payload. -/
def c9mdat : MP4Atom := ⟨tagOf "mdat", 12, [10, 20, 30, 40]⟩

theorem C9_witness :
    (_process_moov c9moov = .ok ⟨tagOf "moov", 8, []⟩ ∧
      (MP4Atom.mk (tagOf "moov") 8 []).pack.length ≤ c9moov.pack.length) ∧
    (_decrypt_mdat (fun _ _ n => n) c9st c9mdat).data.length = c9mdat.data.length :=
  ⟨⟨by rfl, C9_theorem.1 c9moov (by decide) (MP4Atom.mk (tagOf "moov") 8 [])
      (by rfl)⟩,
   C9_theorem.2 (fun _ _ n => n) c9st c9mdat (by decide)⟩

/-- **C7** — Key selection for a track fragment.  The one-entry map is
indeed used unconditionally; but with a multi-entry map the lookup raises
`AttributeError` (`tid.pack(4, "big")` on an `int`), the bare `except`
around it swallows the exception, and the samples of a fragment whose
`tfhd` track ID has a matching entry are NOT decrypted with that key:
`current_key` stays unchanged. -/
theorem C7_theorem :
    (∀ (kid key : List Nat) (tid : Nat),
      _get_key_for_track [(kid, key)] tid = .ok key) ∧
    _get_key_for_track [([1], [10]), ([2], [20])] 2 =
      .error "AttributeError: int object has no attribute pack" ∧
    traf_key_setup [([1], [10]), ([2], [20])]
      (some ⟨tagOf "tfhd", 16, [0, 0, 0, 0, 0, 0, 0, 2]⟩) none = none :=
  ⟨fun _ _ _ => rfl, rfl, rfl⟩

/-! ## Upstream header assembly (claim C1) -/

/-- `DEFAULT_USER_AGENT` (src/services/hls_proxy.py line 40). -/
def DEFAULT_USER_AGENT : String :=
  "Mozilla/5.0 (Windows NT 10.0; Win64; x64) AppleWebKit/537.36 (KHTML, like Gecko) Chrome/136.0.0.0 Safari/537.36"

/-- Python `del d[k]` on a `str`-keyed dict with unique keys. -/
def dictDel (d : List (String × String)) (k : String) : List (String × String) :=
  d.filter (fun p => !(p.1 == k))

/-- Python `d[k] = v`: update in place if the exact key exists, else append. -/
def dictSet (d : List (String × String)) (k v : String) : List (String × String) :=
  if d.any (fun p => p.1 == k) then d.map (fun p => if p.1 == k then (k, v) else p)
  else d ++ [(k, v)]

/-- Python `d.pop(k)` for a key known to be present. -/
def dictPop (d : List (String × String)) (k : String) : String × List (String × String) :=
  (((d.find? (fun p => p.1 == k)).map Prod.snd).getD "", dictDel d k)

/-- The `h_` query-parameter loop of `handle_proxy_request` (lines 411–425):
each `h_<Name>` parameter first deletes every case-insensitive duplicate of
`<Name>` from `stream_headers` and then sets `stream_headers[<Name>]`. -/
def applyHParams (query : List (String × String))
    (stream_headers : List (String × String)) : List (String × String) :=
  query.foldl
    (fun hs p =>
      if pyStartsWith p.1 "h_" then
        let header_name : String := String.mk (p.1.data.drop 2)
        let removed := hs.filter (fun q => !(pyLower q.1 == pyLower header_name))
        dictSet removed header_name p.2
      else hs) stream_headers

/-- One step of the Title-Case normalization loop of `_proxy_stream`
(lines 1117–1128): `headers['User-Agent'] = headers.pop(key)` etc. -/
def titleCaseStep (hs : List (String × String)) (key : String) :
    List (String × String) :=
  if pyLower key == "user-agent" then
    let p := dictPop hs key
    dictSet p.2 "User-Agent" p.1
  else if pyLower key == "referer" then
    let p := dictPop hs key
    dictSet p.2 "Referer" p.1
  else if pyLower key == "origin" then
    let p := dictPop hs key
    dictSet p.2 "Origin" p.1
  else if pyLower key == "authorization" then
    let p := dictPop hs key
    dictSet p.2 "Authorization" p.1
  else if pyLower key == "cookie" then
    let p := dictPop hs key
    dictSet p.2 "Cookie" p.1
  else hs

/-- The header dictionary `_proxy_stream` (lines 1087–1128) sends upstream:
copy of `stream_headers`, pass-through of range/cache headers unless the
URL looks like a redirector, exact-key deletion of the four IP-revealing
names, a default `User-Agent`, and the Title-Case normalization loop over
a snapshot of the keys. -/
def upstream_stream_headers (request_headers : List (String × String))
    (stream_url : String) (stream_headers : List (String × String)) :
    List (String × String) :=
  let headers := stream_headers
  let is_redirector := pyIn "/resolve/" (pyLower stream_url) ||
    pyIn "torrentio" (pyLower stream_url)
  let headers :=
    if !is_redirector then
      ["range", "if-none-match", "if-modified-since"].foldl
        (fun hs h =>
          match assocGetCI request_headers h with
          | some v => dictSet hs h v
          | none => hs) headers
    else headers
  let headers :=
    ["x-forwarded-for", "x-real-ip", "forwarded", "via"].foldl
      (fun hs h => if hs.any (fun p => p.1 == h) then dictDel hs h else hs) headers
  let headers :=
    if !(headers.any (fun p => pyLower p.1 == "user-agent")) then
      dictSet headers "User-Agent" DEFAULT_USER_AGENT
    else headers
  (headers.map Prod.fst).foldl titleCaseStep headers

/-- **C1** — Claimed: no upstream request carries an `X-Forwarded-For`,
`X-Real-IP`, `Forwarded` or `Via` header, regardless of input headers or
`h_*` parameters.  Refuted: the deletion in `_proxy_stream` matches the
four names as exact lowercase keys only, while the `h_` parameter loop of
`handle_proxy_request` installs the header under the client's spelling, so
`?h_X-Forwarded-For=1.2.3.4` reaches the upstream request intact. -/
theorem C1_counterexample :
    assocGetCI
      (upstream_stream_headers [] "https://example.com/live/stream.m3u8"
        (applyHParams [("h_X-Forwarded-For", "1.2.3.4")] []))
      "x-forwarded-for" = some "1.2.3.4" := by decide

/-! ## Segment prefetch (claim C3) -/

/-- The anchored search `([-_])(\.?…)` of `_prefetch_next_segments`
(line 1524): `re.search(r'([-_])(\d+)(\.[^.]+)$', path)` — from the end of
the path, an extension (a dot followed by at least one non-dot character),
a non-empty digit run, and a `-` or `_` separator before it.  Returns
(prefix, separator, digit run, extension). -/
def parseSegSuffix (path : String) : Option (String × Char × String × String) :=
  let r := path.data.reverse
  let extRev := r.takeWhile (fun c => c ≠ '.')
  match r.dropWhile (fun c => c ≠ '.') with
  | '.' :: rest2 =>
      if extRev.isEmpty then none
      else
        let digsRev := rest2.takeWhile Char.isDigit
        match rest2.dropWhile Char.isDigit with
        | c :: rest4 =>
            if digsRev.isEmpty then none
            else if c = '-' ∨ c = '_' then
              some (String.mk rest4.reverse, c, String.mk digsRev.reverse,
                String.mk ('.' :: extRev.reverse))
            else none
        | [] => none
  | _ => none

/-- `MP4HLSProxy._prefetch_next_segments` (lines 1517–1554) over a URL
split as `origin ++ path` (scheme and netloc in `origin`): for
`i ∈ {1,2,3}` build the next URL by replacing the digit run with
`current_num + i`, form `cache_key = f"\x7bnext_url\x7d:\x7bkey_id\x7d"`, and spawn a
background task unless the key sits in the segment cache or the pending
set.  Returns the new pending set and the spawned cache keys, in order. -/
def _prefetch_next_segments (origin path key_id : String)
    (segment_cache_keys prefetch_tasks : List String) :
    List String × List String :=
  match parseSegSuffix path with
  | none => (prefetch_tasks, [])
  | some (pre, sep, digits, ext) =>
      let current_num := digitsToNat digits.data
      [1, 2, 3].foldl
        (fun (acc : List String × List String) i =>
          let next_num := current_num + i
          let new_path := pre ++ String.mk [sep] ++ toString next_num ++ ext
          let next_url := origin ++ new_path
          let cache_key := next_url ++ ":" ++ key_id
          if !(segment_cache_keys.contains cache_key) &&
              !(acc.1.contains cache_key) then
            (acc.1 ++ [cache_key], acc.2 ++ [cache_key])
          else acc)
        (prefetch_tasks, [])

/-- The outside world as `_fetch_and_cache_segment` sees it: whether the
`decrypt_segment` import succeeded, the two HTTP responses (status-200
flag and body), and the decryption function. -/
structure FetchEnv where
  decrypt_segment_available : Bool
  init_status_ok : Bool
  init_body : List Nat
  seg_status_ok : Bool
  seg_body : List Nat
  decrypt : List Nat → List Nat → String → String → List Nat

/-- The caches and the pending set of `MP4HLSProxy`. -/
structure CacheState where
  init_cache : List (String × List Nat)
  segment_cache : List (String × List Nat)
  prefetch_tasks : List String
deriving Repr

/-- Python `d[k] = v` on a bytes-valued dict. -/
def dictSetB (d : List (String × List Nat)) (k : String) (v : List Nat) :
    List (String × List Nat) :=
  if d.any (fun p => p.1 == k) then d.map (fun p => if p.1 == k then (k, v) else p)
  else d ++ [(k, v)]

/-- The `try` body of `_fetch_and_cache_segment` (lines 1556–1597).  The
segment download ends in `return await resp.read()` (line 1585), so on a
status-200 response the coroutine returns the raw bytes instead of binding
`segment_content`; on any other outcome `segment_content` is still `None`
and the `if segment_content:` block is skipped. -/
def fetchBody (env : FetchEnv) (_url init_url _key key_id : String)
    (cache_key : String) (st : CacheState) : CacheState :=
  if !env.decrypt_segment_available then st
  else
    let init_pair :=
      if pyTruthy (some init_url) then
        match (st.init_cache.find? (fun p => p.1 == init_url)).map Prod.snd with
        | some cached => (cached, st)
        | none =>
            if env.init_status_ok then
              (env.init_body,
                { st with init_cache := dictSetB st.init_cache init_url env.init_body })
            else ([], st)
      else ([], st)
    let init_content := init_pair.1
    let st1 := init_pair.2
    if env.seg_status_ok then st1
    else
      let segment_content : Option (List Nat) := none
      match segment_content with
      | some c =>
          let decrypted_content := env.decrypt init_content c key_id _key
          { st1 with segment_cache := dictSetB st1.segment_cache cache_key decrypted_content }
      | none => st1

/-- `MP4HLSProxy._fetch_and_cache_segment` (lines 1556–1602): the `try`
body followed by the `finally` clause that removes `cache_key` from the
pending set. -/
def _fetch_and_cache_segment (env : FetchEnv) (url init_url key key_id : String)
    (cache_key : String) (st : CacheState) : CacheState :=
  let st2 := fetchBody env url init_url key key_id cache_key st
  { st2 with prefetch_tasks := st2.prefetch_tasks.filter (fun k => !(k == cache_key)) }

/-- **C3** — Claimed: prefetch of N+1..N+3 is spawned and deduplicated via
the pending set, and a prefetch that observes a cache miss and completes
its fetch successfully inserts the decrypted bytes into the segment cache.
The spawning and deduplication hold, but the insertion never happens: the
segment download ends in `return await resp.read()` instead of binding
`segment_content`, so for every environment — including a successful
status-200 fetch — the segment cache is left exactly as it was. -/
theorem C3_theorem :
    (_prefetch_next_segments "https://cdn.example" "/media/seg-7.m4s" "KID" [] []).2 =
      ["https://cdn.example/media/seg-8.m4s:KID",
       "https://cdn.example/media/seg-9.m4s:KID",
       "https://cdn.example/media/seg-10.m4s:KID"] ∧
    (_prefetch_next_segments "https://cdn.example" "/media/seg-7.m4s" "KID"
      ["https://cdn.example/media/seg-8.m4s:KID"]
      ["https://cdn.example/media/seg-9.m4s:KID"]).2 =
      ["https://cdn.example/media/seg-10.m4s:KID"] ∧
    (∀ (env : FetchEnv) (url init_url key key_id cache_key : String)
      (st : CacheState),
      (_fetch_and_cache_segment env url init_url key key_id cache_key
        st).segment_cache = st.segment_cache) := by
  refine ⟨by decide, by decide, ?_⟩
  intro env url init_url key key_id cache_key st
  rw [_fetch_and_cache_segment, fetchBody]
  by_cases hd : (!env.decrypt_segment_available) = true
  · rw [if_pos hd]
  · rw [if_neg hd]
    by_cases hi : pyTruthy (some init_url) = true
    · rw [if_pos hi]
      cases hc : (st.init_cache.find? (fun p => p.1 == init_url)).map Prod.snd with
      | some cached =>
          by_cases hs : env.seg_status_ok = true
          · rw [if_pos hs]
          · rw [if_neg hs]
      | none =>
          by_cases ho : env.init_status_ok = true
          · rw [if_pos ho]
            by_cases hs : env.seg_status_ok = true
            · rw [if_pos hs]
            · rw [if_neg hs]
          · rw [if_neg ho]
            by_cases hs : env.seg_status_ok = true
            · rw [if_pos hs]
            · rw [if_neg hs]
    · rw [if_neg hi]
      by_cases hs : env.seg_status_ok = true
      · rw [if_pos hs]
      · rw [if_neg hs]
